import Mathlib

/-!
RadioRCA — verification of the Ingestion & Geospatial RCA core

A shallow embedding, in Lean 4, of the parts of the RadioRCA repository that
the specification's claims are about:

* `src/infrastructure/csv_reader.py` — the Format Sniffer's delimiter choice
  (`CsvReader._find_start_params`, lines 23–33);
* `src/services/rca_utils.py` — `get_latest_clean_file` and
  `fetch_ericsson_e_tilt_group` (the Parameter Resolver);
* `src/services/analytics/radio_utils.py` — `find_standard_col`
  (the Column Mapper);
* `src/services/analytics/geospatial.py` — the pure geometry functions
  (`calculate_required_tilt`, `calculate_angle_offset`, `calculate_bearing`,
  `haversine`) and the `analyze` orchestrator (web-mode data path; the
  CLI-only `print`/`input` blocks are I/O and are not modelled).

Modelling conventions, used throughout:

* Python floats are modelled as real numbers `ℝ`; values held in table cells
  are modelled as exact rationals `ℚ` (every decimal literal a telecom CSV
  export can contain is rational).  `float` / IEEE rounding error is not
  modelled; no claim is about the last ulp.
* Python exceptions are modelled by `Except PyError`; a Python function that
  cannot raise is a plain function.
* `pandas.DataFrame` is modelled by `Table`: a header list plus rows of
  `CellVal` (a number, a string, or NaN for a missing cell).  NaN *site
  coordinates* are not modelled (no claim involves them); note that pandas
  treats `NaN == NaN` as false while `CellVal` has decidable equality — no
  claim's input contains a NaN site identifier, where that could matter.
* Python's `sorted` is modelled as a stable sort (`sortValues`: tag with
  original positions, sort by the lexicographic order (key, position)) —
  that is its documented contract.  `pandas.DataFrame.sort_values` with
  its default `kind='quicksort'` guarantees a key-sorted permutation but
  NOT the relative order of equal keys; its contract is modelled by
  `IsSortOutcome` (any key-sorted permutation), properties of the
  site-selection step are proved for every admissible outcome, and the
  pipeline function fixes the stable outcome only so that it stays a
  function.
* `round(x, 1)` is modelled as `round1` (round to the nearest tenth).
  Mathlib's `round` rounds half-integers up while Python rounds them to even;
  no input used below sits on a half-way point.
-/

namespace RadioRCA

/-- The Python exceptions the modelled code can raise. -/
inductive PyError : Type
  | typeError
  | valueError
  | indexError
  deriving DecidableEq, Repr

/-- Binding a raised exception propagates it. -/
@[simp] theorem error_bind {α β : Type} (e : PyError) (f : α → Except PyError β) :
    (Except.error e : Except PyError α) >>= f = Except.error e := rfl

/-- Binding a normal value applies the continuation. -/
@[simp] theorem ok_bind {α β : Type} (a : α) (f : α → Except PyError β) :
    (Except.ok a : Except PyError α) >>= f = f a := rfl

/-! ## String helpers

Python's substring test `pat in s` over `String`, written out on character
lists so that it is directly computable. -/

/-- Helper: `listBeginsWith s p` iff `p` is an initial segment of `s`. -/
def listBeginsWith : List Char → List Char → Bool
  | _, [] => true
  | [], _ :: _ => false
  | a :: s, b :: p => a = b && listBeginsWith s p

/-- Helper: `listHasSegment s p` iff `p` occurs contiguously inside `s`. -/
def listHasSegment : List Char → List Char → Bool
  | s, p => if listBeginsWith s p then true else
      match s with
      | [] => false
      | _ :: t => listHasSegment t p

/-- Python's `pat in s` for strings. -/
def strContains (s pat : String) : Bool :=
  listHasSegment s.toList pat.toList

/-- Python's `s.endswith(p)` (used for the `.csv` glob suffix). -/
def strEndsWith (s p : String) : Bool :=
  listBeginsWith s.toList.reverse p.toList.reverse

/-- Python's `s.startswith(p)`. -/
def strStartsWith (s p : String) : Bool :=
  listBeginsWith s.toList p.toList

/-- Python's `s.lower()` (ASCII-exact, as all header material here is
ASCII), written on character lists. -/
def toLowerStr (s : String) : String :=
  String.mk (s.toList.map Char.toLower)

/-- Python's `s.strip()` (the whitespace actually present in vendor
headers), written on character lists. -/
def trimStr (s : String) : String :=
  String.mk
    (((s.toList.dropWhile Char.isWhitespace).reverse.dropWhile
      Char.isWhitespace).reverse)

/-! ## Numeric parsing

`float(...)` applied to the string content of a table cell.  A simple decimal
grammar (sign, digits, optional fractional part) suffices: these are the
strings `pandas.read_csv` leaves unconverted in otherwise numeric columns. -/

/-- Digits to a natural number; `none` when empty or a non-digit appears. -/
def digitsToNat : List Char → Option ℕ
  | [] => none
  | cs => cs.foldl (fun acc c =>
      match acc with
      | none => none
      | some n => if c.isDigit then some (n * 10 + (c.toNat - '0'.toNat)) else none)
      (some 0)

/-- Parse an optionally signed decimal numeral (`"12"`, `"-3.5"`) as a
rational; `none` when the string is not such a numeral (e.g. `"abc"`). -/
def parseDecimal (s : String) : Option ℚ :=
  let cs := s.toList
  let (sign, body) : ℚ × List Char :=
    match cs with
    | '-' :: t => (-1, t)
    | '+' :: t => (1, t)
    | t => (1, t)
  match body.splitOn '.' with
  | [intPart] =>
      (digitsToNat intPart).map fun n => sign * n
  | [intPart, fracPart] =>
      match digitsToNat intPart, digitsToNat fracPart with
      | some n, some f => some (sign * (n + (f : ℚ) / ((10 : ℚ) ^ fracPart.length)))
      | _, _ => none
  | _ => none

/-- Parse a string as a Python `int` literal (no dot allowed). -/
def parseIntStr (s : String) : Option ℤ :=
  let cs := s.toList
  let (sign, body) : ℤ × List Char :=
    match cs with
    | '-' :: t => (-1, t)
    | '+' :: t => (1, t)
    | t => (1, t)
  (digitsToNat body).map fun n => sign * n

/-- Model of `int()` applied to a float truncates toward zero. -/
def ratTrunc (q : ℚ) : ℤ := if q < 0 then ⌈q⌉ else ⌊q⌋

/-! ## Table cells (`pandas` values) -/

/-- A value held in one cell of a loaded CSV: a number, an unconverted
string, or NaN (missing). -/
inductive CellVal : Type
  | num (q : ℚ)
  | text (s : String)
  | nan
  deriving DecidableEq, Repr

/-- Python `float(v)` on a cell value: numbers pass through, strings are
parsed, a non-numeric string raises `ValueError`.  (A NaN cell would give
float NaN; NaN coordinates are outside the modelled inputs, and we raise
`ValueError` to keep the function total.) -/
def pyFloat : CellVal → Except PyError ℚ
  | .num q => .ok q
  | .text s =>
      match parseDecimal s with
      | some q => .ok q
      | none => .error .valueError
  | .nan => .error .valueError

/-- Python `int(v)` on a cell value (geospatial.py line 165): a float
truncates toward zero, `int` of NaN raises `ValueError`, `int` of a string
requires an integer literal. -/
def pyIntOfVal : CellVal → Except PyError ℤ
  | .num q => .ok (ratTrunc q)
  | .text s =>
      match parseIntStr s with
      | some n => .ok n
      | none => .error .valueError
  | .nan => .error .valueError

/-- Python `str(v)` of a cell value.  For the string cells used in every
claim this is the identity; the float formatting of numeric cells is
approximated by `toString` (no claim depends on it). -/
def pyStr : CellVal → String
  | .num q => toString q
  | .text s => s
  | .nan => "nan"

/-! ## Generic list operations shared by the pipeline

`sortValues` models both `pandas.DataFrame.sort_values` and Python's
`sorted`: a stable sort, realised by tagging each element with its original
position and insertion-sorting by the lexicographic order
(key, original position). -/

section ListOps

variable {ρ : Type} {κ : Type} {σ : Type}

/-- The lexicographic "stable" comparison on position-tagged elements:
strictly smaller key, or equal key and not-later original position. -/
def pairLe [LinearOrder κ] (key : ρ → κ) (p q : ℕ × ρ) : Prop :=
  key p.2 < key q.2 ∨ (key p.2 = key q.2 ∧ p.1 ≤ q.1)

instance pairLe.decidableRel [LinearOrder κ] (key : ρ → κ) :
    DecidableRel (pairLe key) := fun _ _ => by
  unfold pairLe; infer_instance

/-- Stable sort by `key`.  This is exact for Python's `sorted` (lines
194–197), which is contractually stable.  For `df.sort_values` at line
100 — whose default quicksort does NOT guarantee the order of equal
keys — it is only one admissible outcome, fixed here so the pipeline is a
function; the claim about line 100 (C5) is settled over *all* admissible
outcomes via `IsSortOutcome` below. -/
def sortValues [LinearOrder κ] (key : ρ → κ) (l : List ρ) : List ρ :=
  (l.enum.insertionSort (pairLe key)).map Prod.snd

/-- Model of `pandas.unique`: the distinct values of a list, in order of first
appearance.  The accumulator holds the values already seen. -/
def pyUniqueAux [DecidableEq σ] (seen : List σ) : List σ → List σ
  | [] => []
  | a :: t => if a ∈ seen then pyUniqueAux seen t else a :: pyUniqueAux (a :: seen) t

/-- Model of `pandas.unique` on a list. -/
def pyUnique [DecidableEq σ] (l : List σ) : List σ := pyUniqueAux [] l

/-- Model of the `[site_col].unique()[:site_limit]` part of line 100,
applied to a sorted row list `L`. -/
def selectSitesOn [DecidableEq σ] (siteOf : ρ → σ) (L : List ρ) (limit : ℕ) :
    List σ :=
  (pyUnique (L.map siteOf)).take limit

/-- geospatial.py line 100:
`df.sort_values('distance_km')[site_col].unique()[:site_limit]`, with the
sort resolved to the fixed outcome `sortValues` (see its comment). -/
def selectSites [LinearOrder κ] [DecidableEq σ]
    (key : ρ → κ) (siteOf : ρ → σ) (rows : List ρ) (limit : ℕ) : List σ :=
  selectSitesOn siteOf (sortValues key rows) limit

/-- CPython's `min(it, key=k)` loop: keep the current best, replace it only
on a strict improvement — so the *first* element attaining the minimal key
wins.  `lt x best` is `k(x) < k(best)`. -/
def pyMinByAux (lt : ρ → ρ → Prop) [DecidableRel lt] (best : ρ) : List ρ → ρ
  | [] => best
  | x :: t => pyMinByAux lt (if lt x best then x else best) t

/-- Python `min(l, key=k)`; `none` models the `ValueError` on an empty list
(turned into an error by the caller). -/
def pyMinBy (lt : ρ → ρ → Prop) [DecidableRel lt] : List ρ → Option ρ
  | [] => none
  | a :: t => some (pyMinByAux lt a t)

end ListOps

/-! ## `csv_reader.py` — the Format Sniffer's delimiter choice

`CsvReader._find_start_params` scans for the first line containing an anchor
keyword and picks the delimiter there (lines 23–29):

    if any(k in line for k in keywords):
        try:
            dialect = csv.Sniffer().sniff(line)
            return i, dialect.delimiter, enc
        except:
            return i, ';', enc

The generic separator sniffer (`csv.Sniffer().sniff`) is modelled as an
oracle `sniff : String → Option Char` (`none` = the sniffer raised). -/

/-- The delimiter chosen by `_find_start_params` at a candidate header line:
whatever the sniffer returns, and `';'` whenever sniffing fails. -/
def delimiterChoice (sniff : String → Option Char) (line : String) : Char :=
  match sniff line with
  | some d => d
  | none => ';'

/-- The delimiter-detection priority as the SPEC states it (§4.1, claim C6):
tab whenever the line contains a tab; otherwise the sniffer's result; on
sniffing failure, semicolon if present, else comma.  Written from the spec's
words, for comparison against `delimiterChoice`. -/
def delimiterChoiceClaim (sniff : String → Option Char) (line : String) : Char :=
  if strContains line "\t" then '\t'
  else
    match sniff line with
    | some d => d
    | none => if strContains line ";" then ';' else ','

/-- The header scan of `_find_start_params` (lines 23–33) on decoded lines:
the first line containing any anchor keyword yields
`(its index, delimiterChoice there)`; when no line matches, the conservative
default `(0, ';')` is returned. -/
def find_start_params (sniff : String → Option Char) (keywords : List String) :
    List String → ℕ → ℕ × Char
  | [], _ => (0, ';')
  | line :: rest, i =>
      if keywords.any (fun k => strContains line k) then (i, delimiterChoice sniff line)
      else find_start_params sniff keywords rest (i + 1)

/-! ## `rca_utils.py` — `get_latest_clean_file` and the loading call

    def get_latest_clean_file(folder_name, pattern):
        path = Path(f"data/input/{folder_name}/archive")
        if not path.exists(): return None
        files = sorted(path.glob(f"clean_*{pattern}*.csv"), reverse=True)
        return files[0] if files else None

The filesystem is a parameter `fs : String → Option (List String)` mapping a
directory path to its file listing (`none` = the directory does not exist). -/

/-- Does `name` match the glob `clean_*{pattern}*.csv`?  (Modelled as: the
`clean_` prefix, the `.csv` suffix, and `pattern` occurring in between.) -/
def globMatches (pattern name : String) : Bool :=
  strStartsWith name "clean_" && strEndsWith name ".csv" &&
    listHasSegment ((name.toList.drop 6).dropLast.dropLast.dropLast.dropLast)
      pattern.toList

/-- Model of `get_latest_clean_file` (rca_utils.py lines 20–29).  `sorted(…,
reverse=True)` on filenames is sorting by the string order, descending. -/
def get_latest_clean_file (fs : String → Option (List String))
    (folder_name pattern : String) : Option String :=
  match fs ("data/input/" ++ folder_name ++ "/archive") with
  | none => none
  | some entries =>
      match sortValues (fun n => n) (entries.filter (globMatches pattern)) |>.reverse with
      | [] => none
      | f :: _ => some f

/-- Number of formal parameters of `def get_latest_clean_file(folder_name,
pattern)` — two, no defaults, no varargs. -/
def getLatestCleanFileParamCount : ℕ := 2

/-- Number of positional arguments at the call site geospatial.py line 60:
`get_latest_clean_file("database", "database_", tech)`. -/
def loadingCallArgCount : ℕ := 3

/-- The LOADING step of `analyze` (geospatial.py lines 60–63).  Python binds
a call's arguments to the callee's parameters before running the body; a
2-parameter function applied to 3 positional arguments raises `TypeError`
without entering the body.  `tech` is the third positional argument
(`ctx.get('technology')`). -/
def loadingStep (fs : String → Option (List String)) (tech : Option String) :
    Except PyError (Option String) :=
  if loadingCallArgCount = getLatestCleanFileParamCount then
    .ok (get_latest_clean_file fs "database" "database_")
  else
    .error .typeError

/-! ## `rca_utils.py` — `fetch_ericsson_e_tilt_group` (Parameter Resolver)

The configuration ("CM") table is passed as `Option (List CmRow)`; `none`
models `get_latest_clean_file("cm", "cm_")` finding no file.  Columns
`NodeId`, `AntennaUnitGroupId`, `AntennaNearUnitId`, `electricalAntennaTilt`
are the fields of `CmRow` (their presence is what §6 requires of a
configuration table; a missing column would raise inside the `try` and
produce `None`, indistinguishable from the no-match result modelled here). -/

/-- One row of the normalized configuration table. -/
structure CmRow : Type where
  nodeId : String
  antennaUnitGroupId : ℚ
  antennaNearUnitId : String
  electricalAntennaTilt : ℚ
  deriving DecidableEq, Repr

/-- The resolver's result (`e_tilt` in degrees, `band_id`). -/
structure EtiltGroup : Type where
  e_tilt : ℚ
  band_id : String
  deriving DecidableEq, Repr

/-- Model of `sector_map` (rca_utils.py lines 110–114): last character →
`AntennaUnitGroupId`. -/
def sector_map : Char → Option ℕ
  | 'X' => some 1 | 'O' => some 1 | 'L' => some 1 | 'A' => some 1
  | 'Y' => some 2 | 'P' => some 2 | 'M' => some 2 | 'B' => some 2
  | 'Z' => some 3 | 'Q' => some 3 | 'N' => some 3 | 'C' => some 3
  | _ => none

/-- Model of `band_map` (rca_utils.py lines 116–120): last character →
`AntennaNearUnitId` keyword.  `'A'`, `'B'`, `'C'` have no entry. -/
def band_map : Char → Option String
  | 'X' => some "L2100" | 'Y' => some "L2100" | 'Z' => some "L2100"
  | 'L' => some "L1800" | 'M' => some "L1800" | 'N' => some "L1800"
  | 'O' => some "L800" | 'P' => some "L800" | 'Q' => some "L800"
  | _ => none

/-- Model of `str(cell_name)[-1].upper()`; `none` on the empty string, where Python
raises `IndexError` (outside the function's `try`). -/
def lastCharUpper (s : String) : Option Char :=
  (s.toList.getLast?).map Char.toUpper

/-- Model of `fetch_ericsson_e_tilt_group` (rca_utils.py lines 99–158).  The sector
and band are derived from the cell name's last character *before* the
configuration table is touched; a missing mapping returns `None` at line
126.  Then rows are filtered by `NodeId` containing the site id, and by
exact sector match and band containment; the first surviving row's tilt (in
tenths of a degree) is divided by 10. -/
def fetch_ericsson_e_tilt_group (cm : Option (List CmRow))
    (site_id cell_name : String) : Except PyError (Option EtiltGroup) := do
  match lastCharUpper cell_name with
  | none => .error .indexError
  | some c =>
    match sector_map c, band_map c with
    | some target_sector, some target_band =>
      match cm with
      | none => .ok none
      | some rows =>
        let site_data := rows.filter (fun r => strContains r.nodeId site_id)
        if site_data ≠ [] then
          match site_data.filter (fun r =>
              r.antennaUnitGroupId = (target_sector : ℚ) &&
              strContains r.antennaNearUnitId target_band) with
          | [] => .ok none
          | row :: _ =>
              .ok (some ⟨row.electricalAntennaTilt / 10, row.antennaNearUnitId⟩)
        else .ok none
    | _, _ => .ok none

/-! ## `radio_utils.py` — `find_standard_col` (Column Mapper) -/

/-- The fixed role → keyword table of `find_standard_col`. -/
def colKeywords (target : String) : List String :=
  if target = "lat" then ["lat", "latitude", "y_coord", "north"]
  else if target = "lon" then ["lon", "long", "longitude", "x_coord", "east"]
  else if target = "azi" then ["azi", "dir", "orientation", "angle", "beam"]
  else if target = "site" then ["site", "node", "enodeb", "site_id"]
  else if target = "cell" then ["cell", "sector", "antenna", "cell_name"]
  else if target = "hba" then ["hba", "height", "mha", "altitude"]
  else if target = "tilt" then ["tilt", "etilt", "e-tilt", "elect_tilt"]
  else if target = "arfcn" then ["arfcn", "earfcndl", "earfcn", "ssbfrequency", "ssb_freq"]
  else []

/-- Helper: `find_standard_col(df_columns, target_type, default=None)`: the first
column whose lower-cased name contains any keyword for the role; otherwise
the caller's default. -/
def find_standard_col (cols : List String) (target : String)
    (dflt : Option String := none) : Option String :=
  match cols.find? (fun c =>
      (colKeywords target).any (fun k => strContains (toLowerStr c) (toLowerStr k))) with
  | some c => some c
  | none => dflt

/-! ## `geospatial.py` — the pure geometry functions

Python floats are modelled as `ℝ`; `np.arctan2` is the IEEE `atan2`. -/

open Real in
/-- IEEE / numpy `arctan2 y x`. -/
noncomputable def atan2 (y x : ℝ) : ℝ :=
  if 0 < x then arctan (y / x)
  else if x < 0 ∧ 0 ≤ y then arctan (y / x) + π
  else if x < 0 ∧ y < 0 then arctan (y / x) - π
  else if x = 0 ∧ 0 < y then π / 2
  else if x = 0 ∧ y < 0 then -(π / 2)
  else 0

/-- Model of `np.radians`. -/
noncomputable def radians (d : ℝ) : ℝ := d * Real.pi / 180

/-- Model of `np.degrees`. -/
noncomputable def degreesOf (r : ℝ) : ℝ := r * 180 / Real.pi

/-- Python float `%` with a positive modulus: `x - y * floor (x / y)`. -/
noncomputable def pyFmod (x y : ℝ) : ℝ := x - y * ⌊x / y⌋

/-- Python `round(x, 1)`. -/
noncomputable def round1 (x : ℝ) : ℝ := (round (10 * x) : ℤ) / 10

/-- Python `round(x, 2)`. -/
noncomputable def round2 (x : ℝ) : ℝ := (round (100 * x) : ℤ) / 100

/-- Python `int()` truncation of a float toward zero. -/
noncomputable def pyTruncR (x : ℝ) : ℤ := if x < 0 then ⌈x⌉ else ⌊x⌋

/-- Model of `calculate_required_tilt` (geospatial.py lines 7–16): 0 for non-positive
distance, else the arctangent of height over distance-in-meters, in degrees,
rounded to one decimal. -/
noncomputable def calculate_required_tilt (height_m distance_km : ℝ) : ℝ :=
  if distance_km ≤ 0 then 0
  else round1 (degreesOf (atan2 height_m (distance_km * 1000)))

/-- Model of `calculate_angle_offset` (geospatial.py lines 18–25) on a present,
non-NaN azimuth (`None`/NaN handling sits at the call site in the
pipeline): `|azimuth - bearing| % 360`, folded above 180, rounded. -/
noncomputable def calculate_angle_offset (azimuth bearing : ℝ) : ℝ :=
  let diff := pyFmod |azimuth - bearing| 360
  round1 (if 180 < diff then 360 - diff else diff)

/-- Model of `calculate_bearing` (geospatial.py lines 27–33): initial bearing from
point 1 (site) to point 2 (user), `(degrees(atan2 y x) + 360) % 360`. -/
noncomputable def calculate_bearing (lat1 lon1 lat2 lon2 : ℝ) : ℝ :=
  let phi1 := radians lat1
  let phi2 := radians lat2
  let dlam := radians (lon2 - lon1)
  let y := Real.sin dlam * Real.cos phi2
  let x := Real.cos phi1 * Real.sin phi2 -
    Real.sin phi1 * Real.cos phi2 * Real.cos dlam
  pyFmod (degreesOf (atan2 y x) + 360) 360

/-- Model of `haversine` (geospatial.py lines 35–41): great-circle distance with
Earth radius 6371.0 km.  Note: no rounding. -/
noncomputable def haversine (lat1 lon1 lat2 lon2 : ℝ) : ℝ :=
  let R : ℝ := 6371
  let phi1 := radians lat1
  let phi2 := radians lat2
  let dphi := radians (lat2 - lat1)
  let dlam := radians (lon2 - lon1)
  let a := Real.sin (dphi / 2) ^ 2 +
    Real.cos phi1 * Real.cos phi2 * Real.sin (dlam / 2) ^ 2
  R * 2 * atan2 (Real.sqrt a) (Real.sqrt (1 - a))

/-! ## The per-cell diagnostic record and the DONE step

`CellRec` is the `cell_data` dict built at geospatial.py lines 158–172.  It
is polymorphic in the numeric type: the pipeline instantiates `α := ℝ`,
while concrete counterexamples use `α := ℚ` where every field evaluates. -/

/-- One entry of `analysis_results["cells"]`. -/
structure CellRec (α : Type) : Type where
  site_id : String
  cell_name : String
  arfcn : Option CellVal
  site_lat : α
  site_lon : α
  distance : α
  azimuth : ℤ
  bearing : ℤ
  offset : Option α
  h_status : String
  req_tilt : α
  e_tilt : α
  v_status : String
  deriving DecidableEq

/-- The sort/min key `x['offset'] if x['offset'] is not None else 999` used
at geospatial.py lines 197 and 200. -/
def offsetKey [LinearOrderedField α] (c : CellRec α) : α := c.offset.getD 999

/-- The three vertical-status strings (lines 137–142). -/
def vOkStr : String := "✅ [V-OK]"

def vEdgeStr : String := "⚠️ [EDGE]"

def vMissedStr : String := "❌ [MISSED]"

/-- Verdict string of the sweet-spot branch (line 205). -/
def sweetVerdict (b_site b_cell : String) : String :=
  "🎯 Sweet Spot: " ++ b_site ++ " (" ++ b_cell ++ ") has Horizontal & Vertical alignment OK."

/-- Verdict string of the horizontal-mismatch branch (line 207). -/
def horizVerdict (b_site b_cell : String) : String :=
  "📢 Horizontal Mismatch: Azimuth on " ++ b_site ++ " (" ++ b_cell ++ ") is likely the Root Cause."

/-- Verdict string of the vertical-mismatch branch (line 209). -/
def vertVerdict (b_site b_cell : String) : String :=
  "📉 Vertical Mismatch: Check Tilt/Overshooting on " ++ b_site ++ " (" ++ b_cell ++ ")."

/-- The strict comparison `offsetKey x < offsetKey best` driving
`min(cells, key=…)` at line 200. -/
def offsetLt [LinearOrderedField α] (c d : CellRec α) : Prop :=
  offsetKey c < offsetKey d

instance offsetLt.decidableRel [LinearOrderedField α] :
    DecidableRel (offsetLt (α := α)) := fun _ _ => by
  unfold offsetLt; infer_instance

/-- The DONE step (geospatial.py lines 199–209): pick
`min(cells, key=offset-or-999)` and synthesize the verdict.  `min` of an
empty list raises `ValueError`; `best_cell['offset'] <= 30` raises
`TypeError` when the offset is `None` (Python 3 cannot order `None` against
an int). -/
def doneStep [LinearOrderedField α] (cells : List (CellRec α)) :
    Except PyError String :=
  match pyMinBy offsetLt cells with
  | none => .error .valueError
  | some best =>
    match best.offset with
    | none => .error .typeError
    | some o =>
        if o ≤ 30 ∧ strContains best.v_status "✅" then
          .ok (sweetVerdict best.site_id best.cell_name)
        else if 30 < o then
          .ok (horizVerdict best.site_id best.cell_name)
        else
          .ok (vertVerdict best.site_id best.cell_name)

/-! Claim-side definitions for C2, written from the spec's words
("select the single best cell by smallest angular offset, ties broken by
smallest distance"). -/

/-- The spec's best-cell comparison: smaller offset, or equal offset and
smaller distance. -/
def claimBestLt [LinearOrderedField α] (c d : CellRec α) : Prop :=
  offsetKey c < offsetKey d ∨ (offsetKey c = offsetKey d ∧ c.distance < d.distance)

instance claimBestLt.decidableRel [LinearOrderedField α] :
    DecidableRel (claimBestLt (α := α)) := fun _ _ => by
  unfold claimBestLt; infer_instance

/-- The best cell as the CLAIM states it: minimal offset, ties broken by
minimal distance. -/
def claimBestCell [LinearOrderedField α] (cells : List (CellRec α)) :
    Option (CellRec α) :=
  pyMinBy claimBestLt cells

/-- The verdict as the CLAIM states it, applied to the claim's best cell:
sweet spot iff offset ≤ 30° and vertical status `V_OK`; horizontal mismatch
iff offset > 30°; vertical mismatch otherwise. -/
def claimVerdict [LinearOrderedField α] (cells : List (CellRec α)) :
    Option String :=
  (claimBestCell cells).bind fun best =>
    best.offset.map fun o =>
      if o ≤ 30 ∧ best.v_status = vOkStr then
        sweetVerdict best.site_id best.cell_name
      else if 30 < o then
        horizVerdict best.site_id best.cell_name
      else
        vertVerdict best.site_id best.cell_name

/-! ## `geospatial.py` — the `analyze` pipeline after loading

`analyzeTable` embeds geospatial.py lines 65–209 (web mode): the loaded
design table is its input (`analyze` below composes it with the LOADING
step).  The CLI-only blocks (`input()` at 54–58, printing at 175–190 and
211–243) are interactive I/O and are not part of the returned result. -/

/-- One row of a loaded CSV. -/
abbrev ProcRow := List CellVal

/-- A loaded `pandas.DataFrame`: header names and rows of cells. -/
structure Table : Type where
  headers : List String
  rows : List ProcRow

/-- Line 69: `df.columns.str.strip().str.lower()`. -/
def normHeaders (t : Table) : List String :=
  t.headers.map (fun h => toLowerStr (trimStr h))

/-- Helper: `row[c]` for a column name `c`: the cell at the column's position
(missing → NaN). -/
def getCol (cols : List String) (r : ProcRow) (c : String) : CellVal :=
  match cols.findIdx? (fun h => h = c) with
  | some i => r.getD i .nan
  | none => .nan

/-- Model of `np.radians`/`np.sin`… applied to a raw cell value inside
`calculate_bearing`: numpy raises `TypeError` on a string.  (NaN
coordinates are outside the modelled inputs; see the header.) -/
def asNumR : CellVal → Except PyError ℝ
  | .num q => .ok (q : ℝ)
  | .text _ => .error .typeError
  | .nan => .error .valueError

/-- The column mapping resolved at lines 74–81, after the lat/lon safety
check has passed. -/
structure MapCtx : Type where
  cols : List String
  latc : String
  lonc : String
  azic : Option String
  sitec : String
  cellc : String
  hbac : Option String
  arfc : Option String

/-- The azimuth column of a table (line 76), exposed for claim C10. -/
def aziColOf (t : Table) : Option String :=
  find_standard_col (normHeaders t) "azi"

/-- Line 90: `df['distance_km'] = df.apply(lambda r: haversine(u_lat, u_lon,
float(r[lat_col]), float(r[lon_col])), axis=1)` — row order preserved, the
first unparseable coordinate raises. -/
noncomputable def computeDistances (u_lat u_lon : ℝ) (cols : List String) (latc lonc : String) :
    List ProcRow → Except PyError (List (ProcRow × ℝ))
  | [] => .ok []
  | r :: rest => do
      let la ← pyFloat (getCol cols r latc)
      let lo ← pyFloat (getCol cols r lonc)
      let rest' ← computeDistances u_lat u_lon cols latc lonc rest
      .ok ((r, haversine u_lat u_lon (la : ℝ) (lo : ℝ)) :: rest')

/-- The `e_tilt` actually used by the orchestrator (lines 126–129): the
resolver's value when available, else the default `0.0`. -/
def cellEtilt (cm : Option (List CmRow)) (site_id cell_name : String) :
    Except PyError ℝ :=
  (fetch_ericsson_e_tilt_group cm site_id cell_name).map fun grp =>
    match grp with
    | some g => (g.e_tilt : ℝ)
    | none => 0

/-- Lines 113–114: `azimuth = row[azi_col] if azi_col else None` and the
offset.  The azimuth column absent gives `None`; a NaN azimuth gives
`None`; `np.isnan` applied to a string raises `TypeError`. -/
noncomputable def offsetValue (ctx : MapCtx) (r : ProcRow) (bearing : ℝ) :
    Except PyError (Option ℝ) :=
  match ctx.azic with
  | none => pure none
  | some ac =>
    match getCol ctx.cols r ac with
    | .num a => pure (some (calculate_angle_offset (a : ℝ) bearing))
    | .nan => pure none
    | .text _ => .error .typeError

/-- Line 121: `float(row[hba_col]) if hba_col and not pd.isna(...) else
30.0`. -/
noncomputable def hbaValue (ctx : MapCtx) (r : ProcRow) : Except PyError ℝ :=
  match ctx.hbac with
  | none => pure 30
  | some hc =>
    match getCol ctx.cols r hc with
    | .nan => pure 30
    | v => (pyFloat v).map (fun q => (q : ℝ))

/-- Line 165: `int(row[azi_col]) if azi_col else 0`. -/
def azFieldValue (ctx : MapCtx) (r : ProcRow) : Except PyError ℤ :=
  match ctx.azic with
  | none => pure 0
  | some ac => pyIntOfVal (getCol ctx.cols r ac)

/-- The body of the inner loop (lines 107–173) for one row of the design
table, producing one `cell_data` record.  Sub-steps appear in source
order, so exceptions are raised in the source's order. -/
noncomputable def processCell (cm : Option (List CmRow)) (u_lat u_lon : ℝ) (ctx : MapCtx)
    (rd : ProcRow × ℝ) : Except PyError (CellRec ℝ) := do
  -- line 110: bearing from site to user, on the raw row values
  let la ← asNumR (getCol ctx.cols rd.1 ctx.latc)
  let lo ← asNumR (getCol ctx.cols rd.1 ctx.lonc)
  let angle_to_user := calculate_bearing la lo u_lat u_lon
  let offset ← offsetValue ctx rd.1 angle_to_user
  let hba ← hbaValue ctx rd.1
  -- lines 123–129: parameter-resolver lookup with 0.0 fallback
  let site_id := pyStr (getCol ctx.cols rd.1 ctx.sitec)
  let cell_name := pyStr (getCol ctx.cols rd.1 ctx.cellc)
  let e_tilt ← cellEtilt cm site_id cell_name
  -- lines 133–142: required tilt and vertical status
  let req_tilt := calculate_required_tilt hba rd.2
  let v_delta := |req_tilt - e_tilt|
  let v_status := if v_delta ≤ 3 then vOkStr
    else if v_delta ≤ 6 then vEdgeStr else vMissedStr
  -- lines 146–155: horizontal status
  let h_status :=
    match offset with
    | none => "N/A"
    | some o => if o ≤ 30 then "✅ [DIRECT]"
        else if o ≤ 70 then "⚠️ [SIDE]"
        else if o ≤ 120 then "⚠️ [Fare SIDE]" else "❌ [BACK]"
  -- lines 158–172: the record (int(row[azi_col]) raises on NaN)
  let azF ← azFieldValue ctx rd.1
  pure {
    site_id := site_id
    cell_name := cell_name
    arfcn := ctx.arfc.map (fun c => getCol ctx.cols rd.1 c)
    site_lat := la
    site_lon := lo
    distance := round2 rd.2
    azimuth := azF
    bearing := pyTruncR angle_to_user
    offset := offset
    h_status := h_status
    req_tilt := req_tilt
    e_tilt := e_tilt
    v_status := v_status }

/-- The inner loop over the rows of one site, in original row order. -/
noncomputable def processRows (cm : Option (List CmRow)) (u_lat u_lon : ℝ) (ctx : MapCtx) :
    List (ProcRow × ℝ) → Except PyError (List (CellRec ℝ))
  | [] => .ok []
  | rd :: rest => do
      let c ← processCell cm u_lat u_lon ctx rd
      let cs ← processRows cm u_lat u_lon ctx rest
      .ok (c :: cs)

/-- The outer loop (lines 102–173): for each selected site, process the
rows whose site cell equals it (`df[df[site_col] == site]`, original row
order), appending records across sites in site order. -/
noncomputable def processSites (cm : Option (List CmRow)) (u_lat u_lon : ℝ) (ctx : MapCtx)
    (annotated : List (ProcRow × ℝ)) : List CellVal → Except PyError (List (CellRec ℝ))
  | [] => .ok []
  | s :: rest => do
      let cs ← processRows cm u_lat u_lon ctx
        (annotated.filter (fun rd => getCol ctx.cols rd.1 ctx.sitec = s))
      let more ← processSites cm u_lat u_lon ctx annotated rest
      .ok (cs ++ more)

/-- The returned `analysis_results` structure. -/
structure AnalysisResult : Type where
  user_coords : ℝ × ℝ
  cells : List (CellRec ℝ)
  top_distance : List (CellRec ℝ)
  top_offset : List (CellRec ℝ)
  verdict : String

/-- geospatial.py lines 65–209 (web mode), starting from the loaded design
table: normalize headers, map columns (missing latitude/longitude raises
`ValueError`, line 87), compute distances, select the nearest distinct
sites, build the per-cell records, the two top-3 lists (lines 194–197,
Python `sorted` is stable) and the verdict. -/
noncomputable def analyzeTable (cm : Option (List CmRow)) (u_lat u_lon : ℝ)
    (site_limit : ℕ) (t : Table) : Except PyError AnalysisResult := do
  let cols := normHeaders t
  match find_standard_col cols "lat", find_standard_col cols "lon" with
  | some latc, some lonc => do
      let ctx : MapCtx := {
        cols := cols
        latc := latc
        lonc := lonc
        azic := find_standard_col cols "azi"
        sitec := (find_standard_col cols "site" cols.head?).getD ""
        cellc := (find_standard_col cols "cell"
          (find_standard_col cols "site" cols.head?)).getD ""
        hbac := find_standard_col cols "hba"
        arfc := find_standard_col cols "arfcn" }
      let annotated ← computeDistances u_lat u_lon cols latc lonc t.rows
      let sites := selectSites Prod.snd
        (fun rd => getCol cols rd.1 ctx.sitec) annotated site_limit
      let cells ← processSites cm u_lat u_lon ctx annotated sites
      let top_distance := (sortValues (fun c => c.distance) cells).take 3
      let top_offset := (sortValues offsetKey cells).take 3
      let verdict ← doneStep cells
      pure ⟨(u_lat, u_lon), cells, top_distance, top_offset, verdict⟩
  | _, _ => .error .valueError

/-- The whole `analyze` data path: the LOADING step (lines 60–63; on a
missing file the function prints a warning and returns `None`), then the
table pipeline.  `readTable` stands for `pd.read_csv`. -/
noncomputable def analyze (fs : String → Option (List String))
    (readTable : String → Table) (cm : Option (List CmRow))
    (u_lat u_lon : ℝ) (site_limit : ℕ) (tech : Option String) :
    Except PyError (Option AnalysisResult) := do
  match ← loadingStep fs tech with
  | none => pure none
  | some path => do
      let r ← analyzeTable cm u_lat u_lon site_limit (readTable path)
      pure (some r)

/-! ## Claim C1 — the LOADING step -/

/-- C1: the spec claims the LOADING step resolves the latest normalized
design table through `latest_table(category, technology_tag?)`, and that a
missing file ends the run in a `DataUnavailable` ERROR outcome with no
uncaught exception.  In the code, `get_latest_clean_file` is defined with
two parameters (rca_utils.py line 20) while geospatial.py line 60 calls it
with three positional arguments, so *every* analysis run — whatever the
filesystem contents, table, or technology tag — raises an uncaught
`TypeError` before any lookup happens. -/
theorem C1_loading_always_raises_TypeError
    (fs : String → Option (List String)) (readTable : String → Table)
    (cm : Option (List CmRow)) (u_lat u_lon : ℝ) (site_limit : ℕ)
    (tech : Option String) :
    analyze fs readTable cm u_lat u_lon site_limit tech =
      .error PyError.typeError := by
  simp [analyze, loadingStep, loadingCallArgCount, getLatestCleanFileParamCount]

/-! ## Claim C6 — the Format Sniffer's delimiter choice -/

/-- C6 counterexample: the claimed priority "(a) tab if the line contains a
tab; … (c) on sniffing failure semicolon if present else comma" does not
match the code.  On the line `"a,b\tc,d"` — which contains a tab, and on
which Python's `csv.Sniffer().sniff` returns `','` (comma is earlier than
tab in its preferred-delimiter list) — the code returns the sniffer's
comma while the claimed priority returns tab. -/
theorem C6_counterexample :
    strContains "a,b\tc,d" "\t" = true ∧
    delimiterChoice (fun _ => some ',') "a,b\tc,d" = ',' ∧
    delimiterChoiceClaim (fun _ => some ',') "a,b\tc,d" = '\t' ∧
    (',' : Char) ≠ '\t' := by
  refine ⟨by decide, rfl, by decide, by decide⟩

/-- C6 amended: the code has no tab short-circuit and no comma fallback —
at the first line containing an anchor keyword, the delimiter is whatever
the generic sniffer returns when it succeeds, and `';'` whenever sniffing
fails, regardless of which characters the line contains. -/
theorem C6_amended (sniff : String → Option Char) (keywords : List String)
    (line : String) (rest : List String) (i : ℕ) :
    (∀ d, sniff line = some d → delimiterChoice sniff line = d) ∧
    (sniff line = none → delimiterChoice sniff line = ';') ∧
    (keywords.any (fun k => strContains line k) = true →
      find_start_params sniff keywords (line :: rest) i =
        (i, delimiterChoice sniff line)) := by
  refine ⟨fun d h => ?_, fun h => ?_, fun h => ?_⟩
  · simp [delimiterChoice, h]
  · simp [delimiterChoice, h]
  · simp [find_start_params, h]

/-- C6 amended, witnessed at concrete inputs: a succeeding sniffer's result
is used verbatim; a failing sniff falls back to `';'` even on a line with
no semicolon; a keyword line at index 3 is where detection happens. -/
theorem C6_amended_witness :
    delimiterChoice (fun _ => some ',') "Site_ID,Latitude" = ',' ∧
    delimiterChoice (fun _ => none) "Date" = ';' ∧
    find_start_params (fun _ => none) ["Date"] ["Date Time"] 3 = (3, ';') :=
  ⟨(C6_amended (fun _ => some ',') [] "Site_ID,Latitude" [] 0).1 ',' rfl,
   (C6_amended (fun _ => none) [] "Date" [] 0).2.1 rfl,
   by
    have h := (C6_amended (fun _ => none) ["Date"] "Date Time" [] 3).2.2 (by decide)
    rw [h, (C6_amended (fun _ => none) [] "Date Time" [] 0).2.1 rfl]⟩

/-! ## Claim C9 — A/B/C suffixes in the Parameter Resolver -/

/-- C9: a cell identifier whose final character (upper-cased) is `'A'`,
`'B'` or `'C'` is in `sector_map` but not in `band_map`, so
`fetch_ericsson_e_tilt_group` returns unavailable at line 126 — before and
independently of the configuration table — and the orchestrator's
`e_tilt` for such a cell is the 0° default. -/
theorem C9_abc_suffix_always_default
    (cm cm' : Option (List CmRow)) (site cell : String) (c : Char)
    (hlast : lastCharUpper cell = some c)
    (habc : c = 'A' ∨ c = 'B' ∨ c = 'C') :
    fetch_ericsson_e_tilt_group cm site cell = .ok none ∧
    fetch_ericsson_e_tilt_group cm site cell =
      fetch_ericsson_e_tilt_group cm' site cell ∧
    cellEtilt cm site cell = .ok 0 := by
  have hband : band_map c = none := by
    rcases habc with h | h | h <;> subst h <;> rfl
  have hfetch : ∀ cm'' : Option (List CmRow),
      fetch_ericsson_e_tilt_group cm'' site cell = .ok none := by
    intro cm''
    rcases hs : sector_map c with _ | s <;>
      simp only [fetch_ericsson_e_tilt_group, hlast, hs, hband]
  exact ⟨hfetch cm, by rw [hfetch cm, hfetch cm'],
    by rw [cellEtilt, hfetch cm]; rfl⟩

/-- C9 witnessed at `cell_name = "PLO125A"` against a configuration table
that would otherwise match the site: the resolver still returns
unavailable, identically to an absent table, and the engine tilt is 0. -/
theorem C9_witness :
    fetch_ericsson_e_tilt_group (some [⟨"PLO125", 1, "L2100", 45⟩])
        "PLO125" "PLO125A" = .ok none ∧
    fetch_ericsson_e_tilt_group (some [⟨"PLO125", 1, "L2100", 45⟩])
        "PLO125" "PLO125A" =
      fetch_ericsson_e_tilt_group none "PLO125" "PLO125A" ∧
    cellEtilt (some [⟨"PLO125", 1, "L2100", 45⟩]) "PLO125" "PLO125A" = .ok 0 :=
  C9_abc_suffix_always_default (some [⟨"PLO125", 1, "L2100", 45⟩]) none
    "PLO125" "PLO125A" 'A' (by decide) (Or.inl rfl)

/-! ## Claim C2 — best cell and verdict in the DONE step

First, the characterization of CPython's `min(…, key=…)`: it keeps the
*first* element attaining the minimal key. -/

section MinChar

set_option maxRecDepth 4000

variable {α : Type} [LinearOrderedField α]

/-- Invariant of the `min` loop: either the incoming candidate survives and
no later element strictly beats it, or the result sits in the list with
every earlier element strictly worse and every later element no better. -/
theorem pyMinByAux_char (l : List (CellRec α)) :
    ∀ best : CellRec α,
      (pyMinByAux offsetLt best l = best ∧
        ∀ x ∈ l, offsetKey best ≤ offsetKey x) ∨
      (offsetKey (pyMinByAux offsetLt best l) < offsetKey best ∧
        ∃ pre post, l = pre ++ pyMinByAux offsetLt best l :: post ∧
          (∀ x ∈ pre, offsetKey (pyMinByAux offsetLt best l) < offsetKey x) ∧
          (∀ x ∈ post, offsetKey (pyMinByAux offsetLt best l) ≤ offsetKey x)) := by
  induction l with
  | nil => intro best; exact Or.inl ⟨rfl, by simp⟩
  | cons x t ih =>
      intro best
      by_cases hx : offsetLt x best
      · -- `x` strictly improves: the loop continues with `x`
        have hrec : pyMinByAux offsetLt best (x :: t) = pyMinByAux offsetLt x t := by
          simp [pyMinByAux, hx]
        rcases ih x with ⟨heq, hall⟩ | ⟨hlt, pre, post, hsplit, hpre, hpost⟩
        · refine Or.inr ⟨?_, [], t, ?_, by simp, ?_⟩
          · rw [hrec, heq]; exact hx
          · simp [hrec, heq]
          · intro y hy; rw [hrec, heq]; exact hall y hy
        · refine Or.inr ⟨?_, x :: pre, post, ?_, ?_, ?_⟩
          · rw [hrec]; exact lt_trans hlt hx
          · rw [hrec]
            conv_lhs => rw [hsplit]
            rfl
          · intro y hy
            rcases List.mem_cons.1 hy with hy | hy
            · subst hy; rw [hrec]; exact hlt
            · rw [hrec]; exact hpre y hy
          · intro y hy; rw [hrec]; exact hpost y hy
      · -- `x` does not improve: the candidate is kept
        have hxk : offsetKey best ≤ offsetKey x := le_of_not_lt hx
        have hrec : pyMinByAux offsetLt best (x :: t) = pyMinByAux offsetLt best t := by
          simp [pyMinByAux, hx]
        rcases ih best with ⟨heq, hall⟩ | ⟨hlt, pre, post, hsplit, hpre, hpost⟩
        · refine Or.inl ⟨by rw [hrec, heq], ?_⟩
          intro y hy
          rcases List.mem_cons.1 hy with hy | hy
          · subst hy; exact hxk
          · exact hall y hy
        · refine Or.inr ⟨by rw [hrec]; exact hlt, x :: pre, post, ?_, ?_, ?_⟩
          · rw [hrec]
            conv_lhs => rw [hsplit]
            rfl
          · intro y hy
            rcases List.mem_cons.1 hy with hy | hy
            · subst hy; rw [hrec]; exact lt_of_lt_of_le hlt hxk
            · rw [hrec]; exact hpre y hy
          · intro y hy; rw [hrec]; exact hpost y hy

/-- Fact: `min(cells, key=offset-or-999)` returns the *first* cell attaining the
minimal key: every earlier cell is strictly worse, every later one no
better. -/
theorem pyMinBy_first_min (cells : List (CellRec α)) (b : CellRec α)
    (h : pyMinBy offsetLt cells = some b) :
    ∃ pre post, cells = pre ++ b :: post ∧
      (∀ x ∈ pre, offsetKey b < offsetKey x) ∧
      (∀ x ∈ post, offsetKey b ≤ offsetKey x) := by
  match cells, h with
  | a :: t, h =>
      have hb : pyMinByAux offsetLt a t = b := by
        simpa [pyMinBy] using h
      rcases pyMinByAux_char t a with ⟨heq, hall⟩ | ⟨hlt, pre, post, hsplit, hpre, hpost⟩
      · exact ⟨[], t, by simp [← hb, heq], by simp, by rw [← hb, heq]; exact hall⟩
      · refine ⟨a :: pre, post, by rw [hb] at hsplit; simp [hsplit], ?_, ?_⟩
        · intro y hy
          rcases List.mem_cons.1 hy with hy | hy
          · subst hy; rw [← hb]; exact hlt
          · rw [← hb]; exact hpre y hy
        · intro y hy; rw [← hb]; exact hpost y hy

end MinChar

/-! The C2 counterexample: two cells of one site with *equal* offsets, the
earlier row farther than the later one.  (Reachable from the pipeline: two
rows of one site on the equator east of the user, both with azimuth 270°,
have bearing 270° to the user and hence offset 0°, at different
distances.) -/

/-- The farther cell, first in processing order. -/
def cexFar : CellRec ℚ :=
  { site_id := "S", cell_name := "CELL-FAR", arfcn := none,
    site_lat := 0, site_lon := 2, distance := 2, azimuth := 270,
    bearing := 270, offset := some 0, h_status := "✅ [DIRECT]",
    req_tilt := 0, e_tilt := 0, v_status := vOkStr }

/-- The nearer cell, second in processing order. -/
def cexNear : CellRec ℚ :=
  { site_id := "S", cell_name := "CELL-NEAR", arfcn := none,
    site_lat := 0, site_lon := 1, distance := 1, azimuth := 270,
    bearing := 270, offset := some 0, h_status := "✅ [DIRECT]",
    req_tilt := 0, e_tilt := 0, v_status := vOkStr }

/-- The cell list in processing order (farther first). -/
def cexCells : List (CellRec ℚ) := [cexFar, cexNear]

/-- C2 counterexample: on two cells with equal offsets the claim's best
cell (ties broken by smallest distance) is the nearer `CELL-NEAR`, but
`min(cells, key=offset-or-999)` keeps the first-listed `CELL-FAR`; the two
verdicts name different cells. -/
theorem C2_counterexample :
    claimBestCell cexCells = some cexNear ∧
    pyMinBy offsetLt cexCells = some cexFar ∧
    cexFar ≠ cexNear ∧
    doneStep cexCells = .ok (sweetVerdict "S" "CELL-FAR") ∧
    claimVerdict cexCells = some (sweetVerdict "S" "CELL-NEAR") ∧
    sweetVerdict "S" "CELL-FAR" ≠ sweetVerdict "S" "CELL-NEAR" := by
  refine ⟨by decide, by decide, by decide, rfl, by decide, by decide⟩

/-- C2 amended: the DONE step selects the *first* cell attaining the
minimal offset key — ties are broken by position in the processed cell
list, not by smallest distance — and, when that cell's offset is defined,
the verdict branches exactly as claimed: sweet spot iff offset ≤ 30° and
vertical status `V_OK`, horizontal mismatch iff offset > 30° (regardless
of vertical status), vertical mismatch otherwise. -/
theorem C2_amended (cells : List (CellRec ℚ)) (b : CellRec ℚ) (o : ℚ)
    (hmin : pyMinBy offsetLt cells = some b)
    (hoff : b.offset = some o)
    (hwf : ∀ c ∈ cells,
      c.v_status = vOkStr ∨ c.v_status = vEdgeStr ∨ c.v_status = vMissedStr) :
    (∃ pre post, cells = pre ++ b :: post ∧
        (∀ x ∈ pre, offsetKey b < offsetKey x) ∧
        (∀ x ∈ post, offsetKey b ≤ offsetKey x)) ∧
    doneStep cells = .ok (
      if o ≤ 30 ∧ b.v_status = vOkStr then sweetVerdict b.site_id b.cell_name
      else if 30 < o then horizVerdict b.site_id b.cell_name
      else vertVerdict b.site_id b.cell_name) := by
  have hchar := pyMinBy_first_min cells b hmin
  refine ⟨hchar, ?_⟩
  have hb : b ∈ cells := by
    obtain ⟨pre, post, hsplit, -, -⟩ := hchar
    rw [hsplit]; simp
  have h1 : strContains vOkStr "✅" = true := by decide
  have h2 : strContains vEdgeStr "✅" = false := by decide
  have h3 : strContains vMissedStr "✅" = false := by decide
  have hne1 : vEdgeStr ≠ vOkStr := by decide
  have hne2 : vMissedStr ≠ vOkStr := by decide
  rcases hwf b hb with h | h | h <;>
    simp [doneStep, hmin, hoff, h, h1, h2, h3, hne1, hne2] <;>
    split_ifs <;> simp

/-- C2 amended, witnessed on the concrete tie: `CELL-FAR` heads the
decomposition and the sweet-spot verdict names it. -/
theorem C2_amended_witness :
    (∃ pre post, cexCells = pre ++ cexFar :: post ∧
        (∀ x ∈ pre, offsetKey cexFar < offsetKey x) ∧
        (∀ x ∈ post, offsetKey cexFar ≤ offsetKey x)) ∧
    doneStep cexCells = .ok (
      if (0 : ℚ) ≤ 30 ∧ cexFar.v_status = vOkStr then
        sweetVerdict cexFar.site_id cexFar.cell_name
      else if 30 < (0 : ℚ) then horizVerdict cexFar.site_id cexFar.cell_name
      else vertVerdict cexFar.site_id cexFar.cell_name) :=
  C2_amended cexCells cexFar 0 (by decide) (by decide) (by decide)

/-! ## Claims C7 and C8 — the geometry functions -/

section Geometry

open Real

/-- For positive arguments the arctangent lies strictly below its
argument. -/
theorem arctan_lt_self_of_pos {x : ℝ} (hx : 0 < x) : Real.arctan x < x := by
  rcases le_or_lt (Real.arctan x) 0 with h | h
  · exact lt_of_le_of_lt h hx
  · have h2 := Real.arctan_lt_pi_div_two x
    have h3 := Real.lt_tan h h2
    rwa [Real.tan_arctan] at h3

/-- Positive arguments have positive arctangent. -/
theorem arctan_pos_of_pos {x : ℝ} (hx : 0 < x) : 0 < Real.arctan x := by
  have := Real.arctan_strictMono hx
  rwa [Real.arctan_zero] at this

/-- Fact: `round(x, 1)` of a value in `[0, 1/20)` is exactly `0`. -/
theorem round1_eq_zero {x : ℝ} (h0 : 0 ≤ x) (h1 : x < 1 / 20) : round1 x = 0 := by
  unfold round1
  have hz : round (10 * x) = 0 := by
    rw [round_eq]
    refine Int.floor_eq_zero_iff.mpr ?_
    constructor
    · linarith
    · show 10 * x + 1 / 2 < 1
      linarith
  rw [hz]
  simp

/-- Fact: `round(x, 1)` is monotone. -/
theorem round1_mono {x y : ℝ} (h : x ≤ y) : round1 x ≤ round1 y := by
  unfold round1
  have hr : round (10 * x) ≤ round (10 * y) := by
    rw [round_eq, round_eq]
    exact Int.floor_mono (by linarith)
  have hc : ((round (10 * x) : ℤ) : ℝ) ≤ ((round (10 * y) : ℤ) : ℝ) :=
    Int.cast_le.mpr hr
  linarith

/-- Fact: `calculate_required_tilt` evaluates to exactly `0` whenever the ratio
height / distance-in-meters is below `1/4000` — the rounding step flushes
every sufficiently small angle to `0.0`. -/
theorem tilt_far_zero (h d : ℝ) (hh : 0 < h) (hd : 0 < d)
    (hbound : h / (d * 1000) < 1 / 4000) :
    calculate_required_tilt h d = 0 := by
  have hm : (0 : ℝ) < d * 1000 := by positivity
  have hx : (0 : ℝ) < h / (d * 1000) := by positivity
  unfold calculate_required_tilt
  rw [if_neg (not_le.mpr hd)]
  have hatan2 : atan2 h (d * 1000) = Real.arctan (h / (d * 1000)) := by
    unfold atan2
    rw [if_pos hm]
  rw [hatan2]
  set t := Real.arctan (h / (d * 1000)) with ht
  have htpos : 0 < t := arctan_pos_of_pos hx
  have htlt : t < 1 / 4000 := lt_trans (arctan_lt_self_of_pos hx) hbound
  have hpi : (3 : ℝ) < π := Real.pi_gt_three
  have hpi0 : (0 : ℝ) < π := Real.pi_pos
  apply round1_eq_zero
  · unfold degreesOf
    positivity
  · unfold degreesOf
    rw [div_lt_iff₀ hpi0]
    nlinarith

/-- C8 counterexample: `required_tilt` is NOT strictly decreasing in
distance for a fixed positive height — at height 30 m both 10000 km and
20000 km round to a required tilt of exactly 0.0°. -/
theorem C8_counterexample :
    (0 : ℝ) < 30 ∧ (0 : ℝ) < 10000 ∧ (10000 : ℝ) < 20000 ∧
    calculate_required_tilt 30 10000 = calculate_required_tilt 30 20000 := by
  refine ⟨by norm_num, by norm_num, by norm_num, ?_⟩
  rw [tilt_far_zero 30 10000 (by norm_num) (by norm_num) (by norm_num),
    tilt_far_zero 30 20000 (by norm_num) (by norm_num) (by norm_num)]

/-- C8 amended: `required_tilt(h, d) = 0` for every `d ≤ 0`, and for fixed
height `h > 0` it is weakly decreasing (antitone) in distance over positive
distances; strict decrease fails because of the one-decimal rounding. -/
theorem C8_amended :
    (∀ h d : ℝ, d ≤ 0 → calculate_required_tilt h d = 0) ∧
    (∀ h d₁ d₂ : ℝ, 0 < h → 0 < d₁ → d₁ ≤ d₂ →
      calculate_required_tilt h d₂ ≤ calculate_required_tilt h d₁) := by
  constructor
  · intro h d hd
    unfold calculate_required_tilt
    rw [if_pos hd]
  · intro h d₁ d₂ hh hd₁ hd₂
    have hd₂' : (0 : ℝ) < d₂ := lt_of_lt_of_le hd₁ hd₂
    have hm₁ : (0 : ℝ) < d₁ * 1000 := by positivity
    have hm₂ : (0 : ℝ) < d₂ * 1000 := by positivity
    unfold calculate_required_tilt
    rw [if_neg (not_le.mpr hd₁), if_neg (not_le.mpr hd₂')]
    have ha₁ : atan2 h (d₁ * 1000) = Real.arctan (h / (d₁ * 1000)) := by
      unfold atan2; rw [if_pos hm₁]
    have ha₂ : atan2 h (d₂ * 1000) = Real.arctan (h / (d₂ * 1000)) := by
      unfold atan2; rw [if_pos hm₂]
    rw [ha₁, ha₂]
    apply round1_mono
    unfold degreesOf
    have harg : h / (d₂ * 1000) ≤ h / (d₁ * 1000) := by
      apply div_le_div_of_nonneg_left hh.le hm₁
      linarith
    have harc : Real.arctan (h / (d₂ * 1000)) ≤ Real.arctan (h / (d₁ * 1000)) :=
      Real.arctan_strictMono.monotone harg
    gcongr

/-- C8 amended, witnessed: required tilt is `0` at distance `-1`, and going
from 1 km to 2 km at height 30 m does not increase the required tilt. -/
theorem C8_amended_witness :
    ((-1 : ℝ) ≤ 0 ∧ calculate_required_tilt 5 (-1) = 0) ∧
    ((0 : ℝ) < 30 ∧ (0 : ℝ) < 1 ∧ (1 : ℝ) ≤ 2 ∧
      calculate_required_tilt 30 2 ≤ calculate_required_tilt 30 1) :=
  ⟨⟨by norm_num, C8_amended.1 5 (-1) (by norm_num)⟩,
   by norm_num, by norm_num, by norm_num,
   C8_amended.2 30 1 2 (by norm_num) (by norm_num) (by norm_num)⟩

/-- Fact: `haversine` between the antipodal equator points `(0°, 0°)` and
`(0°, 180°)` is exactly `6371 · π` km — an irrational number, hence not a
value with one decimal place. -/
theorem haversine_antipodal : haversine 0 0 0 180 = 6371 * Real.pi := by
  have h0 : radians 0 = 0 := by unfold radians; ring
  have h180 : radians 180 = π := by unfold radians; ring
  have hsub0 : radians (0 - 0) = 0 := by norm_num [h0]
  have hsub180 : radians (180 - 0) = π := by norm_num [h180]
  have hatan : atan2 (Real.sqrt 1) (Real.sqrt (1 - 1)) = π / 2 := by
    unfold atan2
    rw [show (1 : ℝ) - 1 = 0 by norm_num, Real.sqrt_zero, Real.sqrt_one]
    norm_num
  simp only [haversine, h0, hsub0, hsub180]
  rw [show (0 : ℝ) / 2 = 0 by norm_num, Real.sin_zero, Real.cos_zero,
    Real.sin_pi_div_two]
  rw [show (0 : ℝ) ^ 2 + 1 * 1 * 1 ^ 2 = 1 by norm_num, hatan]
  ring

/-- Fact: the antipodal haversine value `6371 π` is not an integer number
of tenths. -/
theorem haversine_not_tenths :
    ¬ ∃ k : ℤ, haversine 0 0 0 180 = (k : ℝ) / 10 := by
  rintro ⟨k, hk⟩
  rw [haversine_antipodal] at hk
  have hirr : Irrational ((6371 : ℚ) * Real.pi) :=
    irrational_pi.rat_mul (by norm_num)
  exact hirr ⟨(k : ℚ) / 10, by push_cast; linarith⟩

/-- C7 counterexample: `haversine` does not round to one decimal place —
at `(0,0) → (0,180)` its value `6371 π` is irrational, so it is not an
integer number of tenths. -/
theorem C7_counterexample :
    ¬ ∃ k : ℤ, haversine 0 0 0 180 = (k : ℝ) / 10 :=
  haversine_not_tenths

/-- C7 amended: `calculate_required_tilt` and `calculate_angle_offset` do
round to one decimal place (an integer number of tenths for every input),
but `haversine` returns the raw value: at `(0,0) → (0,180)` the distance
`6371 π` has no one-decimal representation. -/
theorem C7_amended :
    (∀ h d : ℝ, ∃ k : ℤ, calculate_required_tilt h d = (k : ℝ) / 10) ∧
    (∀ az b : ℝ, ∃ k : ℤ, calculate_angle_offset az b = (k : ℝ) / 10) ∧
    ¬ ∃ k : ℤ, haversine 0 0 0 180 = (k : ℝ) / 10 := by
  refine ⟨fun h d => ?_, fun az b => ?_, haversine_not_tenths⟩
  · by_cases hd : d ≤ 0
    · exact ⟨0, by simp [calculate_required_tilt, hd]⟩
    · exact ⟨round (10 * degreesOf (atan2 h (d * 1000))), by
        simp [calculate_required_tilt, hd, round1]⟩
  · exact ⟨round (10 * (if 180 < pyFmod |az - b| 360 then
      360 - pyFmod |az - b| 360 else pyFmod |az - b| 360)), by
        simp [calculate_angle_offset, round1]⟩

/-- C7 amended, witnessed: concrete one-decimal values delivered by the two
rounding functions. -/
theorem C7_amended_witness :
    (∃ k : ℤ, calculate_required_tilt 30 (-1) = (k : ℝ) / 10) ∧
    (∃ k : ℤ, calculate_angle_offset 10 0 = (k : ℝ) / 10) :=
  ⟨C7_amended.1 30 (-1), C7_amended.2.1 10 0⟩

/-! Exact evaluations of the geometry at degenerate points, used to run the
pipeline on concrete tables. -/

/-- Fact: `x % y = x` for `0 ≤ x < y`. -/
theorem pyFmod_eq_self {x y : ℝ} (h0 : 0 ≤ x) (hxy : x < y) : pyFmod x y = x := by
  have hy : 0 < y := lt_of_le_of_lt h0 hxy
  have hfl : ⌊x / y⌋ = 0 := by
    refine Int.floor_eq_zero_iff.mpr ?_
    constructor
    · positivity
    · show x / y < 1
      rw [div_lt_one hy]
      exact hxy
  unfold pyFmod
  rw [hfl]
  simp

/-- Fact: `y % y = 0` for positive `y`. -/
theorem pyFmod_self {y : ℝ} (hy : 0 < y) : pyFmod y y = 0 := by
  unfold pyFmod
  rw [div_self hy.ne', Int.floor_one]
  simp

/-- Fact: `round(10, 1) = 10`. -/
theorem round1_ten : round1 (10 : ℝ) = 10 := by
  unfold round1
  rw [show (10 : ℝ) * 10 = ((100 : ℤ) : ℝ) by norm_num, round_intCast]
  norm_num

/-- Fact: `radians 0 = 0`. -/
theorem radians_zero : radians 0 = 0 := by unfold radians; ring

/-- Fact: `degreesOf 0 = 0`. -/
theorem degreesOf_zero : degreesOf 0 = 0 := by unfold degreesOf; ring

/-- Fact: `atan2 0 0 = 0` (as in numpy). -/
theorem atan2_zero_zero : atan2 0 0 = 0 := by
  unfold atan2
  norm_num

/-- Fact: `haversine` of coincident points at the origin is `0`. -/
theorem haversine_zero : haversine 0 0 0 0 = 0 := by
  have h1 : atan2 (Real.sqrt 0) (Real.sqrt (1 - 0)) = 0 := by
    unfold atan2
    rw [Real.sqrt_zero, show (1 : ℝ) - 0 = 1 by norm_num, Real.sqrt_one]
    rw [if_pos (by norm_num : (0 : ℝ) < 1)]
    norm_num
  simp only [haversine, radians_zero, show (0 : ℝ) - 0 = 0 by norm_num]
  rw [show (0 : ℝ) / 2 = 0 by norm_num, Real.sin_zero, Real.cos_zero]
  rw [show (0 : ℝ) ^ 2 + 1 * 1 * 0 ^ 2 = 0 by norm_num, h1]
  ring

/-- The bearing from the origin to itself evaluates to `0`. -/
theorem bearing_zero : calculate_bearing 0 0 0 0 = 0 := by
  simp only [calculate_bearing, radians_zero, show (0 : ℝ) - 0 = 0 by norm_num]
  rw [Real.sin_zero, Real.cos_zero]
  norm_num [atan2_zero_zero, degreesOf_zero]
  exact pyFmod_self (by norm_num)

/-- An azimuth of `10°` against bearing `0°` gives offset `10.0`. -/
theorem offset_ten : calculate_angle_offset 10 0 = 10 := by
  have habs : |(10 : ℝ) - 0| = 10 := by norm_num
  have hmod : pyFmod (10 : ℝ) 360 = 10 :=
    pyFmod_eq_self (by norm_num) (by norm_num)
  simp only [calculate_angle_offset, habs, hmod]
  rw [if_neg (by norm_num : ¬ (180 : ℝ) < 10)]
  exact round1_ten

/-- At distance `0` the required tilt is `0` (the non-positive branch). -/
theorem tilt_at_zero (h : ℝ) : calculate_required_tilt h 0 = 0 := by
  unfold calculate_required_tilt
  rw [if_pos le_rfl]

end Geometry

/-! ## Claim C3 — a design table without an azimuth column -/

/-- A design table with site, cell and coordinate columns but no column
matching any azimuth keyword; one row, sited at the user's location. -/
def noAziTable : Table :=
  { headers := ["site", "cellname", "latitude", "longitude"],
    rows := [[.text "S1", .text "C1", .num 0, .num 0]] }

/-- C3: the spec claims that with no azimuth column the engine degrades
gracefully — offsets unknown, no exception, a complete result with a
verdict.  In the code every per-cell offset is indeed `None` and the cell
records are built, but the verdict computation at line 204 then evaluates
`best_cell['offset'] <= 30` with `offset = None`, which raises an uncaught
`TypeError` (`'<=' not supported between 'NoneType' and 'int'`): no result
is returned at all. -/
theorem C3_no_azimuth_run_raises :
    analyzeTable none 0 0 1 noAziTable = .error PyError.typeError := rfl

/-! ## Claim C4 — rows with unparseable coordinates -/

/-- A design table whose second row has an unparseable latitude. -/
def badRowTable : Table :=
  { headers := ["site", "cellname", "latitude", "longitude"],
    rows := [[.text "S1", .text "C1", .num 0, .num 0],
             [.text "S1", .text "C2", .text "abc", .num 0]] }

/-- C4 counterexample: the claim says a row whose coordinates cannot parse
is skipped individually and the analysis completes over the remaining
rows.  In the code the distance computation at line 90 applies
`float(...)` to every row with no per-row handling: the malformed second
row raises `ValueError` and the whole run aborts — no result is computed
from the well-formed first row. -/
theorem C4_counterexample :
    analyzeTable none 0 0 1 badRowTable = .error PyError.valueError := rfl

/-- Helper for C4: if any row's latitude or longitude fails to `float`,
the distance pass (line 90) fails. -/
theorem computeDistances_error (u v : ℝ) (cols : List String)
    (latc lonc : String) (rows : List ProcRow)
    (hbad : ∃ r ∈ rows,
      (∃ e, pyFloat (getCol cols r latc) = .error e) ∨
      (∃ e, pyFloat (getCol cols r lonc) = .error e)) :
    ∃ e, computeDistances u v cols latc lonc rows = .error e := by
  induction rows with
  | nil => simp at hbad
  | cons r rest ih =>
      rcases hbad with ⟨r', hr', hcase⟩
      rcases List.mem_cons.1 hr' with rfl | hmem
      · rcases hcase with ⟨e, he⟩ | ⟨e, he⟩
        · exact ⟨e, by simp [computeDistances, he]⟩
        · cases hla : pyFloat (getCol cols r' latc) with
          | error e' => exact ⟨e', by simp [computeDistances, hla]⟩
          | ok q => exact ⟨e, by simp [computeDistances, hla, he]⟩
      · rcases ih ⟨r', hmem, hcase⟩ with ⟨e, he⟩
        cases hla : pyFloat (getCol cols r latc) with
        | error e' => exact ⟨e', by simp [computeDistances, hla]⟩
        | ok q =>
            cases hlo : pyFloat (getCol cols r lonc) with
            | error e' => exact ⟨e', by simp [computeDistances, hla, hlo]⟩
            | ok q2 => exact ⟨e, by simp [computeDistances, hla, hlo, he]⟩

/-- C4 amended: a design-table row whose latitude or longitude cannot be
parsed is NOT skipped — it is fatal: whenever the table maps its
coordinate columns and any row's coordinate fails to parse, the whole
analysis aborts with an exception and no result is returned. -/
theorem C4_amended (cm : Option (List CmRow)) (u_lat u_lon : ℝ)
    (limit : ℕ) (t : Table) (latc lonc : String)
    (hlat : find_standard_col (normHeaders t) "lat" = some latc)
    (hlon : find_standard_col (normHeaders t) "lon" = some lonc)
    (hbad : ∃ r ∈ t.rows,
      (∃ e, pyFloat (getCol (normHeaders t) r latc) = .error e) ∨
      (∃ e, pyFloat (getCol (normHeaders t) r lonc) = .error e)) :
    ∃ e, analyzeTable cm u_lat u_lon limit t = .error e := by
  obtain ⟨e, he⟩ :=
    computeDistances_error u_lat u_lon (normHeaders t) latc lonc t.rows hbad
  exact ⟨e, by simp [analyzeTable, hlat, hlon, he]⟩

/-- C4 amended, witnessed on `badRowTable`: the malformed-latitude row
aborts the analysis. -/
theorem C4_amended_witness :
    ∃ e, analyzeTable none 0 0 1 badRowTable = .error e :=
  C4_amended none 0 0 1 badRowTable "latitude" "longitude" rfl rfl
    ⟨[.text "S1", .text "C2", .text "abc", .num 0], by simp [badRowTable],
      Or.inl ⟨.valueError, rfl⟩⟩

/-! ## Claim C10 — the azimuth and offset fields of returned records -/

/-- Inversion principle for a successful `Except` bind. -/
theorem bind_eq_ok {α β : Type} {x : Except PyError α}
    {f : α → Except PyError β} {b : β} :
    x >>= f = .ok b ↔ ∃ a, x = .ok a ∧ f a = .ok b := by
  cases x <;> simp [Bind.bind, Except.bind]

/-- A succeeding `pure` pins down its argument. -/
theorem pure_eq_ok {α : Type} {a b : α} :
    (pure a : Except PyError α) = .ok b ↔ a = b := by
  constructor
  · intro h; cases h; rfl
  · intro h; cases h; rfl

/-- Per-cell inversion: in a successfully built record, the azimuth field
is `0` with no offset when no azimuth column is mapped, and the truncated
numeric azimuth of the row with a present offset when one is. -/
theorem processCell_azimuth_fields (cm : Option (List CmRow)) (u v : ℝ)
    (ctx : MapCtx) (rd : ProcRow × ℝ) (c : CellRec ℝ)
    (h : processCell cm u v ctx rd = .ok c) :
    (ctx.azic = none → c.azimuth = 0 ∧ c.offset = none) ∧
    (∀ ac, ctx.azic = some ac →
      ∃ a : ℚ, getCol ctx.cols rd.1 ac = .num a ∧
        c.azimuth = ratTrunc a ∧ ∃ o : ℝ, c.offset = some o) := by
  simp only [processCell, bind_eq_ok] at h
  obtain ⟨la, hla, lo, hlo, off, hoff, hba, hhba, et, het, az, haz, hrec⟩ := h
  rw [pure_eq_ok] at hrec
  subst hrec
  cases hazi : ctx.azic with
  | none =>
      simp only [offsetValue, azFieldValue, hazi, pure_eq_ok] at hoff haz
      refine ⟨fun _ => ⟨haz.symm, hoff.symm⟩, fun ac hac => ?_⟩
      exact Option.noConfusion hac
  | some ac =>
      refine ⟨fun hn => ?_, fun ac' hac' => ?_⟩
      · exact Option.noConfusion hn
      · obtain rfl : ac = ac' := Option.some_injective _ hac'
        simp only [offsetValue, azFieldValue, hazi] at hoff haz
        cases hcv : getCol ctx.cols rd.1 ac with
        | num a =>
            rw [hcv] at hoff haz
            simp only [pure_eq_ok, pyIntOfVal, Except.ok.injEq] at hoff haz
            exact ⟨a, rfl, haz.symm, ⟨_, hoff.symm⟩⟩
        | text s =>
            rw [hcv] at hoff
            simp at hoff
        | nan =>
            rw [hcv] at haz
            simp [pyIntOfVal] at haz

/-- Every record produced by the inner loop comes from one of its rows. -/
theorem processRows_mem (cm : Option (List CmRow)) (u v : ℝ) (ctx : MapCtx)
    (rows : List (ProcRow × ℝ)) (cs : List (CellRec ℝ))
    (h : processRows cm u v ctx rows = .ok cs) :
    ∀ c ∈ cs, ∃ rd ∈ rows, processCell cm u v ctx rd = .ok c := by
  induction rows generalizing cs with
  | nil =>
      simp only [processRows] at h
      cases h
      simp
  | cons rd rest ih =>
      simp only [processRows, bind_eq_ok] at h
      obtain ⟨c0, hc0, cs', hcs', hpure⟩ := h
      rw [show Except.ok (ε := PyError) (c0 :: cs') = pure (c0 :: cs') from rfl,
        pure_eq_ok] at hpure
      subst hpure
      intro c hc
      rcases List.mem_cons.1 hc with rfl | hc
      · exact ⟨rd, List.mem_cons_self _ _, hc0⟩
      · obtain ⟨rd', hrd', hp⟩ := ih cs' hcs' c hc
        exact ⟨rd', List.mem_cons_of_mem _ hrd', hp⟩

/-- Every record produced by the outer loop comes from an annotated row. -/
theorem processSites_mem (cm : Option (List CmRow)) (u v : ℝ) (ctx : MapCtx)
    (annotated : List (ProcRow × ℝ)) (sites : List CellVal)
    (cells : List (CellRec ℝ))
    (h : processSites cm u v ctx annotated sites = .ok cells) :
    ∀ c ∈ cells, ∃ rd ∈ annotated, processCell cm u v ctx rd = .ok c := by
  induction sites generalizing cells with
  | nil =>
      simp only [processSites] at h
      cases h
      simp
  | cons s rest ih =>
      simp only [processSites, bind_eq_ok] at h
      obtain ⟨cs, hcs, more, hmore, hpure⟩ := h
      rw [show Except.ok (ε := PyError) (cs ++ more) = pure (cs ++ more) from rfl,
        pure_eq_ok] at hpure
      subst hpure
      intro c hc
      rcases List.mem_append.1 hc with hc | hc
      · obtain ⟨rd, hrd, hp⟩ := processRows_mem cm u v ctx _ cs hcs c hc
        exact ⟨rd, List.mem_of_mem_filter hrd, hp⟩
      · exact ih more hmore c hc

/-- Every annotated row of the distance pass is a row of the table. -/
theorem computeDistances_mem (u v : ℝ) (cols : List String)
    (latc lonc : String) (rows : List ProcRow) (ann : List (ProcRow × ℝ))
    (h : computeDistances u v cols latc lonc rows = .ok ann) :
    ∀ rd ∈ ann, rd.1 ∈ rows := by
  induction rows generalizing ann with
  | nil =>
      simp only [computeDistances] at h
      cases h
      simp
  | cons r rest ih =>
      simp only [computeDistances, bind_eq_ok] at h
      obtain ⟨la, hla, lo, hlo, ann', hann', hpure⟩ := h
      rw [show Except.ok (ε := PyError) ((r, haversine u v (la : ℝ) (lo : ℝ)) :: ann') =
        pure ((r, haversine u v (la : ℝ) (lo : ℝ)) :: ann') from rfl,
        pure_eq_ok] at hpure
      subst hpure
      intro rd hrd
      rcases List.mem_cons.1 hrd with rfl | hrd
      · exact List.mem_cons_self _ _
      · exact List.mem_cons_of_mem _ (ih ann' hann' rd hrd)

/-- C10: in every cell record of a returned `AnalysisResult`, when no
azimuth column was mapped the azimuth field is exactly `0` and the offset
is null; when an azimuth column was mapped, the azimuth field is the row's
numeric azimuth truncated to an integer and the offset is present.  Hence
a missing azimuth is indistinguishable in the azimuth field from a true 0°
azimuth, and only the offset field reveals the difference. -/
theorem C10_azimuth_and_offset_fields (cm : Option (List CmRow))
    (u_lat u_lon : ℝ) (limit : ℕ) (t : Table) (res : AnalysisResult)
    (hok : analyzeTable cm u_lat u_lon limit t = .ok res) :
    ∀ c ∈ res.cells,
      (aziColOf t = none → c.azimuth = 0 ∧ c.offset = none) ∧
      (∀ ac, aziColOf t = some ac →
        ∃ r ∈ t.rows, ∃ a : ℚ, getCol (normHeaders t) r ac = .num a ∧
          c.azimuth = ratTrunc a ∧ ∃ o : ℝ, c.offset = some o) := by
  simp only [analyzeTable] at hok
  split at hok
  case _ latc lonc hlatlon =>
    simp only [bind_eq_ok] at hok
    obtain ⟨ann, hann, cells, hcells, verdict, hverd, hpure⟩ := hok
    rw [pure_eq_ok] at hpure
    subst hpure
    intro c hc
    obtain ⟨rd, hrd, hpc⟩ := processSites_mem _ _ _ _ _ _ _ hcells c hc
    have hrow : rd.1 ∈ t.rows :=
      computeDistances_mem _ _ _ _ _ _ _ hann rd hrd
    have hfields := processCell_azimuth_fields _ _ _ _ _ _ hpc
    refine ⟨fun hn => hfields.1 hn, fun ac hac => ?_⟩
    obtain ⟨a, hga, haz, ho⟩ := hfields.2 ac hac
    exact ⟨rd.1, hrow, a, hga, haz, ho⟩
  case _ h =>
    exact absurd hok (by simp)

/-! The C10 witness: a concrete run with a mapped azimuth column.  The
site sits at the user's location, so every geometric value evaluates
exactly. -/

/-- A design table with an azimuth column; one row at the user's point
with azimuth 10°. -/
def aziTable : Table :=
  { headers := ["site", "cellname", "latitude", "longitude", "azimuth"],
    rows := [[.text "S1", .text "C1", .num 0, .num 0, .num 10]] }

/-- The distance term the pipeline computes for the row of `aziTable`. -/
noncomputable def dAzi : ℝ := haversine 0 0 ((0 : ℚ) : ℝ) ((0 : ℚ) : ℝ)

/-- The bearing term the pipeline computes for the row of `aziTable`. -/
noncomputable def bAzi : ℝ := calculate_bearing ((0 : ℚ) : ℝ) ((0 : ℚ) : ℝ) 0 0

/-- The record the pipeline builds for the row of `aziTable`, before the
geometric subterms are evaluated. -/
noncomputable def cellAzi0 : CellRec ℝ :=
  { site_id := "S1", cell_name := "C1", arfcn := none,
    site_lat := ((0 : ℚ) : ℝ), site_lon := ((0 : ℚ) : ℝ),
    distance := round2 dAzi,
    azimuth := ratTrunc 10,
    bearing := pyTruncR bAzi,
    offset := some (calculate_angle_offset ((10 : ℚ) : ℝ) bAzi),
    h_status := if calculate_angle_offset ((10 : ℚ) : ℝ) bAzi ≤ 30 then "✅ [DIRECT]"
      else if calculate_angle_offset ((10 : ℚ) : ℝ) bAzi ≤ 70 then "⚠️ [SIDE]"
      else if calculate_angle_offset ((10 : ℚ) : ℝ) bAzi ≤ 120 then "⚠️ [Fare SIDE]"
      else "❌ [BACK]",
    req_tilt := calculate_required_tilt 30 dAzi,
    e_tilt := 0,
    v_status := if |calculate_required_tilt 30 dAzi - 0| ≤ 3 then vOkStr
      else if |calculate_required_tilt 30 dAzi - 0| ≤ 6 then vEdgeStr
      else vMissedStr }

/-- The same record with every field evaluated. -/
noncomputable def aziCellFinal : CellRec ℝ :=
  { site_id := "S1", cell_name := "C1", arfcn := none,
    site_lat := 0, site_lon := 0, distance := 0, azimuth := 10,
    bearing := 0, offset := some 10, h_status := "✅ [DIRECT]",
    req_tilt := 0, e_tilt := 0, v_status := vOkStr }

/-- The full result of the `aziTable` run. -/
noncomputable def aziRes : AnalysisResult :=
  ⟨(0, 0), [aziCellFinal], [aziCellFinal], [aziCellFinal],
    sweetVerdict "S1" "C1"⟩

/-- Fact: `round(0, 2) = 0`. -/
theorem round2_zero : round2 (0 : ℝ) = 0 := by
  unfold round2
  norm_num

/-- Truncation of `0.0` is `0`. -/
theorem pyTruncR_zero : pyTruncR (0 : ℝ) = 0 := by
  unfold pyTruncR
  norm_num

/-- The `aziTable` run succeeds and returns exactly `aziRes`. -/
theorem aziTable_run : analyzeTable none 0 0 1 aziTable = .ok aziRes := by
  have hstep : analyzeTable none 0 0 1 aziTable =
      (doneStep [cellAzi0]) >>= fun verdict =>
        .ok ⟨(0, 0), [cellAzi0], [cellAzi0], [cellAzi0], verdict⟩ := rfl
  have hd : dAzi = 0 := by
    unfold dAzi
    rw [show ((0 : ℚ) : ℝ) = 0 by norm_num]
    exact haversine_zero
  have hb : bAzi = 0 := by
    unfold bAzi
    rw [show ((0 : ℚ) : ℝ) = 0 by norm_num]
    exact bearing_zero
  have hoff : calculate_angle_offset ((10 : ℚ) : ℝ) bAzi = 10 := by
    rw [hb, show ((10 : ℚ) : ℝ) = 10 by norm_num]
    exact offset_ten
  have hcell : cellAzi0 = aziCellFinal := by
    unfold cellAzi0 aziCellFinal
    rw [hd, hoff, hb]
    norm_num [tilt_at_zero, round2_zero, pyTruncR_zero, vOkStr]
    decide
  have hdone : doneStep [aziCellFinal] = .ok (sweetVerdict "S1" "C1") := by
    have hok : strContains vOkStr "✅" = true := by decide
    simp only [doneStep, pyMinBy, pyMinByAux]
    norm_num [aziCellFinal, hok]
  rw [hstep, hcell, hdone]
  rfl

/-- C10 witnessed on the `aziTable` run: the azimuth column is mapped, and
the single returned record carries the truncated row azimuth together with
a present offset. -/
theorem C10_witness :
    aziColOf aziTable = some "azimuth" ∧
    ∃ r ∈ aziTable.rows, ∃ a : ℚ,
      getCol (normHeaders aziTable) r "azimuth" = .num a ∧
      aziCellFinal.azimuth = ratTrunc a ∧ ∃ o : ℝ, aziCellFinal.offset = some o := by
  refine ⟨rfl, ?_⟩
  have h := C10_azimuth_and_offset_fields none 0 0 1 aziTable aziRes aziTable_run
    aziCellFinal (by simp [aziRes])
  exact h.2 "azimuth" rfl

/-! ## Claim C5 — selection of the nearest distinct sites

Line 100 of geospatial.py is
`df.sort_values('distance_km')[site_col].unique()[:site_limit]`.
`sort_values` with the default `kind='quicksort'` guarantees a key-sorted
permutation of the rows but NOT the relative order of equal keys, so any
key-sorted permutation is an admissible outcome (`IsSortOutcome`), and
every property claimed of the selection must hold for all of them.  What
that contract still guarantees about the selected sites is a weak order:
each earlier site's nearest row is no farther than each later one's. -/

section SiteSelection

variable {ρ : Type} {κ : Type} {σ : Type}

/-- Fact: `pairLe` is total. -/
theorem pairLe_total [LinearOrder κ] (key : ρ → κ) (p q : ℕ × ρ) :
    pairLe key p q ∨ pairLe key q p := by
  rcases lt_trichotomy (key p.2) (key q.2) with h | h | h
  · exact Or.inl (Or.inl h)
  · rcases le_total p.1 q.1 with h2 | h2
    · exact Or.inl (Or.inr ⟨h, h2⟩)
    · exact Or.inr (Or.inr ⟨h.symm, h2⟩)
  · exact Or.inr (Or.inl h)

/-- Fact: `pairLe` is transitive. -/
theorem pairLe_trans [LinearOrder κ] (key : ρ → κ) {p q r : ℕ × ρ}
    (h1 : pairLe key p q) (h2 : pairLe key q r) : pairLe key p r := by
  rcases h1 with h1 | ⟨h1, h1'⟩ <;> rcases h2 with h2 | ⟨h2, h2'⟩
  · exact Or.inl (lt_trans h1 h2)
  · exact Or.inl (h2 ▸ h1)
  · exact Or.inl (h1 ▸ h2)
  · exact Or.inr ⟨h1.trans h2, le_trans h1' h2'⟩

/-- Membership in `pyUniqueAux`: present in the remaining list and not yet
seen. -/
theorem pyUniqueAux_mem [DecidableEq σ] (l : List σ) :
    ∀ (seen : List σ) (x : σ),
      x ∈ pyUniqueAux seen l ↔ x ∈ l ∧ x ∉ seen := by
  induction l with
  | nil => intro seen x; simp [pyUniqueAux]
  | cons a t ih =>
      intro seen x
      by_cases ha : a ∈ seen
      · rw [pyUniqueAux, if_pos ha, ih seen x]
        constructor
        · rintro ⟨hx, hns⟩
          exact ⟨List.mem_cons_of_mem _ hx, hns⟩
        · rintro ⟨hx, hns⟩
          rcases List.mem_cons.1 hx with rfl | hx
          · exact absurd ha hns
          · exact ⟨hx, hns⟩
      · rw [pyUniqueAux, if_neg ha]
        constructor
        · intro hx
          rcases List.mem_cons.1 hx with rfl | hx
          · exact ⟨List.mem_cons_self _ _, ha⟩
          · obtain ⟨h1, h2⟩ := (ih (a :: seen) x).1 hx
            exact ⟨List.mem_cons_of_mem _ h1,
              fun hs => h2 (List.mem_cons_of_mem _ hs)⟩
        · rintro ⟨hx, hns⟩
          by_cases hxa : x = a
          · exact hxa ▸ List.mem_cons_self _ _
          · rcases List.mem_cons.1 hx with rfl | hx
            · exact absurd rfl hxa
            · refine List.mem_cons_of_mem _ ((ih (a :: seen) x).2 ⟨hx, ?_⟩)
              intro hs
              rcases List.mem_cons.1 hs with h | h
              · exact hxa h
              · exact hns h

/-- Fact: `pyUniqueAux` produces no duplicates. -/
theorem pyUniqueAux_nodup [DecidableEq σ] (l : List σ) :
    ∀ seen : List σ, (pyUniqueAux seen l).Nodup := by
  induction l with
  | nil => intro _; simp [pyUniqueAux]
  | cons a t ih =>
      intro seen
      by_cases ha : a ∈ seen
      · rw [pyUniqueAux, if_pos ha]; exact ih seen
      · rw [pyUniqueAux, if_neg ha]
        refine List.nodup_cons.mpr ⟨?_, ih (a :: seen)⟩
        intro hmem
        exact ((pyUniqueAux_mem t (a :: seen) a).1 hmem).2 (List.mem_cons_self _ _)

/-- Model of the `df.sort_values('distance_km')` contract at line 100: an
admissible sort outcome is any permutation of the rows that is sorted by
the key — with the default quicksort the order of equal keys is
unspecified. -/
def IsSortOutcome [LinearOrder κ] (key : ρ → κ) (rows L : List ρ) : Prop :=
  List.Perm L rows ∧ L.Pairwise (fun a b => key a ≤ key b)

/-- Fact: the fixed resolution the pipeline function uses (`sortValues`)
is one admissible outcome of the line-100 sort. -/
theorem sortValues_isSortOutcome [LinearOrder κ] (key : ρ → κ)
    (rows : List ρ) : IsSortOutcome key rows (sortValues key rows) := by
  haveI : IsTotal (ℕ × ρ) (pairLe key) := ⟨pairLe_total key⟩
  haveI : IsTrans (ℕ × ρ) (pairLe key) := ⟨fun _ _ _ => pairLe_trans key⟩
  constructor
  · have h := (List.perm_insertionSort (pairLe key) rows.enum).map Prod.snd
    rwa [List.enum_map_snd] at h
  · have hs : (rows.enum.insertionSort (pairLe key)).Pairwise (pairLe key) :=
      List.sorted_insertionSort _ _
    refine List.pairwise_map.2 (hs.imp ?_)
    rintro p q (h | ⟨h, -⟩)
    · exact le_of_lt h
    · exact le_of_eq h

/-- The weak site order the unspecified tie order still guarantees:
each of `s`, `t` has a key-minimal row among its rows in `W`, and the
minimum for `s` is no larger than the minimum for `t` — "`s`'s nearest
row is no farther than `t`'s nearest row". -/
def siteNearerLe [LinearOrder κ] [DecidableEq σ] (key : ρ → κ) (f : ρ → σ)
    (W : List ρ) (s t : σ) : Prop :=
  ∃ p ∈ W, ∃ q ∈ W, f p = s ∧ f q = t ∧
    (∀ p' ∈ W, f p' = s → key p ≤ key p') ∧
    (∀ q' ∈ W, f q' = t → key q ≤ key q') ∧ key p ≤ key q

/-- In a key-sorted list, the first element carrying a given site value
is key-minimal among all elements carrying it. -/
theorem first_elem_min_le [LinearOrder κ] [DecidableEq σ]
    (key : ρ → κ) (f : ρ → σ) :
    ∀ l : List ρ, l.Pairwise (fun a b => key a ≤ key b) → ∀ t : σ,
      (∃ x ∈ l, f x = t) →
      ∃ q ∈ l, f q = t ∧ ∀ q' ∈ l, f q' = t → key q ≤ key q' := by
  intro l
  induction l with
  | nil => intro _ t h; simp at h
  | cons x xs ih =>
      intro hp t hex
      obtain ⟨hhead, htail⟩ := List.pairwise_cons.1 hp
      by_cases hx : f x = t
      · refine ⟨x, List.mem_cons_self _ _, hx, ?_⟩
        intro q' hq' _
        rcases List.mem_cons.1 hq' with rfl | hq'
        · exact le_rfl
        · exact hhead q' hq'
      · obtain ⟨x0, hx0, hfx0⟩ := hex
        rcases List.mem_cons.1 hx0 with rfl | hx0
        · exact absurd hfx0 hx
        · obtain ⟨q, hq, hfq, hmin⟩ := ih htail t ⟨x0, hx0, hfx0⟩
          refine ⟨q, List.mem_cons_of_mem _ hq, hfq, ?_⟩
          intro q' hq' hfq'
          rcases List.mem_cons.1 hq' with rfl | hq'
          · exact absurd hfq' hx
          · exact hmin q' hq' hfq'

/-- Core of C5: over any key-sorted row list, the distinct site values in
first-appearance order are pairwise in the weak `siteNearerLe` order —
each site's nearest row is no farther than the next site's nearest
row. -/
theorem unique_pairwise_le_core [LinearOrder κ] [DecidableEq σ]
    (key : ρ → κ) (f : ρ → σ) :
    ∀ (W : List ρ) (seen : List σ),
      W.Pairwise (fun a b => key a ≤ key b) →
      List.Pairwise (siteNearerLe key f W) (pyUniqueAux seen (W.map f)) := by
  intro W
  induction W with
  | nil => intro seen _; simp [pyUniqueAux]
  | cons w rest ih =>
      intro seen hp
      obtain ⟨hhead, htail⟩ := List.pairwise_cons.1 hp
      have hlift : ∀ s t : σ, s ≠ f w → t ≠ f w →
          siteNearerLe key f rest s t → siteNearerLe key f (w :: rest) s t := by
        intro s t hs ht ⟨p, hpm, q, hqm, hfp, hfq, hpmin, hqmin, hle⟩
        refine ⟨p, List.mem_cons_of_mem _ hpm, q, List.mem_cons_of_mem _ hqm,
          hfp, hfq, ?_, ?_, hle⟩
        · intro p' hp' hfp'
          rcases List.mem_cons.1 hp' with rfl | hp'
          · exact absurd hfp'.symm hs
          · exact hpmin p' hp' hfp'
        · intro q' hq' hfq'
          rcases List.mem_cons.1 hq' with rfl | hq'
          · exact absurd hfq'.symm ht
          · exact hqmin q' hq' hfq'
      rw [List.map_cons]
      by_cases hw : f w ∈ seen
      · rw [pyUniqueAux, if_pos hw]
        refine List.Pairwise.imp_of_mem ?_ (ih seen htail)
        intro s t hs ht hrel
        have hs' := (pyUniqueAux_mem _ seen s).1 hs
        have ht' := (pyUniqueAux_mem _ seen t).1 ht
        exact hlift s t (fun h => hs'.2 (h ▸ hw)) (fun h => ht'.2 (h ▸ hw)) hrel
      · rw [pyUniqueAux, if_neg hw]
        refine List.pairwise_cons.mpr ⟨?_, ?_⟩
        · -- the head site's minimal row is `w` itself, no farther than any
          -- later site's minimum
          intro t ht
          have ht' := (pyUniqueAux_mem _ (f w :: seen) t).1 ht
          have htne : t ≠ f w := fun h =>
            ht'.2 (h ▸ List.mem_cons_self _ _)
          obtain ⟨x, hx, hfx⟩ := List.mem_map.1 ht'.1
          obtain ⟨q, hq, hfq, hqmin⟩ :=
            first_elem_min_le key f rest htail t ⟨x, hx, hfx⟩
          refine ⟨w, List.mem_cons_self _ _, q, List.mem_cons_of_mem _ hq,
            rfl, hfq, ?_, ?_, hhead q hq⟩
          · intro p' hp' _
            rcases List.mem_cons.1 hp' with rfl | hp'
            · exact le_rfl
            · exact hhead p' hp'
          · intro q' hq' hfq'
            rcases List.mem_cons.1 hq' with rfl | hq'
            · exact absurd hfq'.symm htne
            · exact hqmin q' hq' hfq'
        · refine List.Pairwise.imp_of_mem ?_ (ih (f w :: seen) htail)
          intro s t hs ht hrel
          have hs' := (pyUniqueAux_mem _ (f w :: seen) s).1 hs
          have ht' := (pyUniqueAux_mem _ (f w :: seen) t).1 ht
          exact hlift s t (fun h => hs'.2 (h ▸ List.mem_cons_self _ _))
            (fun h => ht'.2 (h ▸ List.mem_cons_self _ _)) hrel

/-- Fact: `siteNearerLe` is stable under permutations of the row list. -/
theorem siteNearerLe_of_perm [LinearOrder κ] [DecidableEq σ] (key : ρ → κ)
    (f : ρ → σ) {W W' : List ρ} (hperm : List.Perm W W') {s t : σ}
    (h : siteNearerLe key f W s t) : siteNearerLe key f W' s t := by
  obtain ⟨p, hpm, q, hqm, hfp, hfq, hpmin, hqmin, hle⟩ := h
  exact ⟨p, hperm.mem_iff.1 hpm, q, hperm.mem_iff.1 hqm, hfp, hfq,
    fun p' hp' => hpmin p' (hperm.mem_iff.2 hp'),
    fun q' hq' => hqmin q' (hperm.mem_iff.2 hq'), hle⟩

/-- C5 amended: for EVERY admissible outcome `L` of the line-100 sort
(pandas' default quicksort guarantees sortedness by distance but not the
order of equal distances), the selection `unique()[:site_limit]` on `L`
picks the first `min(site_limit, number of distinct sites)` distinct site
identifiers — without duplicates, all drawn from the table, in an order
where each earlier site's nearest row is no farther than each later
one's, and completely: every distinct site left out has its nearest row
no nearer than any selected site's.  Which of several equal-distance
sites is selected or listed first is left unspecified, exactly as the
unstable sort leaves it. -/
theorem C5_amended [LinearOrder κ] [DecidableEq σ] (key : ρ → κ)
    (siteOf : ρ → σ) (rows L : List ρ) (limit : ℕ)
    (hL : IsSortOutcome key rows L) :
    (selectSitesOn siteOf L limit).length
        = min limit (pyUnique (rows.map siteOf)).length ∧
    (selectSitesOn siteOf L limit).Nodup ∧
    (∀ s ∈ selectSitesOn siteOf L limit, s ∈ rows.map siteOf) ∧
    List.Pairwise (siteNearerLe key siteOf rows)
      (selectSitesOn siteOf L limit) ∧
    (∀ s ∈ rows.map siteOf, s ∉ selectSitesOn siteOf L limit →
      ∀ t ∈ selectSitesOn siteOf L limit, siteNearerLe key siteOf rows t s) := by
  obtain ⟨hperm, hsorted⟩ := hL
  have hUorder : List.Pairwise (siteNearerLe key siteOf rows)
      (pyUniqueAux [] (L.map siteOf)) :=
    (unique_pairwise_le_core key siteOf L [] hsorted).imp
      (fun h => siteNearerLe_of_perm key siteOf hperm h)
  have hsel : selectSitesOn siteOf L limit =
      (pyUniqueAux [] (L.map siteOf)).take limit := rfl
  set U := pyUniqueAux [] (L.map siteOf) with hUdef
  have hmemU : ∀ x, x ∈ U ↔ x ∈ rows.map siteOf := by
    intro x
    rw [hUdef, pyUniqueAux_mem]
    simp [(hperm.map siteOf).mem_iff]
  have hnodupU : U.Nodup := pyUniqueAux_nodup _ []
  have hlen : U.length = (pyUnique (rows.map siteOf)).length := by
    have h2 : (pyUnique (rows.map siteOf)).Nodup := pyUniqueAux_nodup _ []
    have hmem2 : ∀ x, x ∈ pyUnique (rows.map siteOf) ↔ x ∈ rows.map siteOf := by
      intro x
      rw [pyUnique, pyUniqueAux_mem]
      simp
    exact ((List.perm_ext_iff_of_nodup hnodupU h2).2
      (fun a => by rw [hmemU, hmem2])).length_eq
  rw [hsel]
  refine ⟨by rw [List.length_take, hlen],
    hnodupU.sublist (List.take_sublist _ _),
    fun s hs => (hmemU s).1 ((List.take_sublist _ _).subset hs),
    hUorder.sublist (List.take_sublist _ _), ?_⟩
  intro s hs hnotsel t ht
  have hsU : s ∈ U := (hmemU s).2 hs
  have hdrop : s ∈ U.drop limit := by
    have h := hsU
    rw [← List.take_append_drop limit U] at h
    rcases List.mem_append.1 h with h | h
    · exact absurd h hnotsel
    · exact h
  have hpairU := hUorder
  rw [← List.take_append_drop limit U] at hpairU
  exact (List.pairwise_append.1 hpairU).2.2 t ht s hdrop

/-- C5 counterexample: the claim's "selects exactly the `site_limit`
nearest distinct site identifiers" fails when the table holds fewer
distinct sites than `site_limit`.  A table with two rows of one site has
a unique admissible sort outcome (its distances 5 and 7 are distinct),
and with `site_limit = 2` the selection is one site, not two. -/
theorem C5_counterexample :
    IsSortOutcome (fun rd : String × ℚ => rd.2)
        [("S1", (5 : ℚ)), ("S1", 7)] [("S1", (5 : ℚ)), ("S1", 7)] ∧
    selectSitesOn Prod.fst [("S1", (5 : ℚ)), ("S1", 7)] 2 = ["S1"] ∧
    (selectSitesOn Prod.fst [("S1", (5 : ℚ)), ("S1", 7)] 2).length ≠ 2 := by
  refine ⟨⟨List.Perm.refl _, by decide⟩, by decide, by decide⟩

/-- C5 amended, witnessed at a two-site table with `limit = 1` and the
sorted outcome given explicitly: the selection is the single nearest site
and all five clauses hold there. -/
theorem C5_amended_witness :
    (selectSitesOn Prod.fst [("S1", (5 : ℚ)), ("S2", 7)] 1).length
      = min 1 (pyUnique ([("S2", (7 : ℚ)), ("S1", 5)].map Prod.fst)).length ∧
    (selectSitesOn Prod.fst [("S1", (5 : ℚ)), ("S2", 7)] 1).Nodup ∧
    (∀ s ∈ selectSitesOn Prod.fst [("S1", (5 : ℚ)), ("S2", 7)] 1,
      s ∈ [("S2", (7 : ℚ)), ("S1", 5)].map Prod.fst) ∧
    List.Pairwise
      (siteNearerLe (fun rd : String × ℚ => rd.2) Prod.fst
        [("S2", (7 : ℚ)), ("S1", 5)])
      (selectSitesOn Prod.fst [("S1", (5 : ℚ)), ("S2", 7)] 1) ∧
    (∀ s ∈ [("S2", (7 : ℚ)), ("S1", 5)].map Prod.fst,
      s ∉ selectSitesOn Prod.fst [("S1", (5 : ℚ)), ("S2", 7)] 1 →
      ∀ t ∈ selectSitesOn Prod.fst [("S1", (5 : ℚ)), ("S2", 7)] 1,
      siteNearerLe (fun rd : String × ℚ => rd.2) Prod.fst
        [("S2", (7 : ℚ)), ("S1", 5)] t s) :=
  C5_amended (fun rd : String × ℚ => rd.2) Prod.fst
    [("S2", (7 : ℚ)), ("S1", 5)] [("S1", (5 : ℚ)), ("S2", 7)] 1
    ⟨by decide, by decide⟩

end SiteSelection

end RadioRCA
